import Mathlib

/-!
# Projeto-Final: the product store (`database.js`) and its web routes (`server.js`)

A shallow embedding of the record store and of the two routes the properties
below talk about, followed by the properties themselves.

Modelling conventions.

* A promise is its outcome: `Except StorageError α` (`ok` = resolved,
  `error` = rejected), paired with the store state the call leaves behind
  whenever the call may write.
* The table `produtos` is the list of its rows in rowid order, together with the
  `sqlite_sequence` counter that `AUTOINCREMENT` maintains.
* `CURRENT_TIMESTAMP` is an argument `now` of the writing calls. A timestamp is a
  natural number of seconds: SQLite's text form `YYYY-MM-DD HH:MM:SS` compares
  bytewise in the same order.
* A finite double is modelled by the rational number it denotes: rounding,
  overflow to an infinity on parsing and the sign of zero are outside the model.
  The two infinities and `NaN` are modelled, because the code branches on them.
* I/O faults and resource limits of the storage engine (such as the longest
  `LIKE` pattern it accepts) are outside the model: the only rejections are the
  ones the SQL statements themselves raise (constraint, full, overflow).
* Inputs are typed as `server.js` produces them: texts for the text fields,
  results of `parseFloat` for `preco` and the price bounds, results of `parseInt`
  for `estoque` and for ids, booleans for `ativo`; any of them may be `undefined`.
  Form fields are texts. An integer-valued double is modelled by the integer it
  denotes; what is read back from the `estoque` column goes through the text of
  the number, which from 1e21 on is in exponent form.
-/

namespace ProjetoFinal

/-! ## JavaScript numbers -/

/-- A double that is not `NaN`: what a `REAL` column can hold. -/
inductive Real64 where
  | negInf
  | fin (q : ℚ)
  | posInf
  deriving DecidableEq

/-- A JavaScript number as `parseFloat` returns it. -/
inductive JsNum where
  | nan
  | num (x : Real64)
  deriving DecidableEq

/-- A JavaScript number as `parseInt` returns it: `NaN` or an integer. -/
inductive JsInt where
  | nan
  | int (i : Int)
  deriving DecidableEq

/-- Numeric order of two doubles, as SQLite compares two `REAL` values. -/
def Real64.le : Real64 → Real64 → Bool
  | .negInf, _ => true
  | _, .posInf => true
  | .fin a, .fin b => decide (a ≤ b)
  | _, _ => false

/-- JavaScript truthiness of a number: everything but `NaN` and zero. -/
def JsNum.truthy : JsNum → Bool
  | .nan => false
  | .num (.fin q) => decide (q ≠ 0)
  | .num _ => true

/-- JavaScript truthiness of an integer-valued number. -/
def JsInt.truthy : JsInt → Bool
  | .nan => false
  | .int i => decide (i ≠ 0)

/-- JavaScript truthiness of a string: every string but the empty one. -/
def strTruthy (s : String) : Bool := !s.data.isEmpty

/-! ## `parseInt` and `parseFloat` -/

/-- The characters `StrWhiteSpaceChar` that `parseInt`/`parseFloat` skip. -/
def isStrWhiteSpace (c : Char) : Bool :=
  let n := c.toNat
  n = 0x09 || n = 0x0A || n = 0x0B || n = 0x0C || n = 0x0D || n = 0x20 ||
  n = 0xA0 || n = 0x1680 || (0x2000 ≤ n && n ≤ 0x200A) || n = 0x2028 ||
  n = 0x2029 || n = 0x202F || n = 0x205F || n = 0x3000 || n = 0xFEFF

/-- Decimal digit test. -/
def isDecDigit (c : Char) : Bool := 48 ≤ c.toNat && c.toNat ≤ 57

/-- Value of a hexadecimal digit, if the character is one. -/
def hexDigitVal (c : Char) : Option Nat :=
  let n := c.toNat
  if 48 ≤ n ∧ n ≤ 57 then some (n - 48)
  else if 97 ≤ n ∧ n ≤ 102 then some (n - 87)
  else if 65 ≤ n ∧ n ≤ 70 then some (n - 55)
  else none

/-- Value of a run of decimal digits. -/
def decValue (ds : List Char) : Nat :=
  ds.foldl (fun acc c => 10 * acc + (c.toNat - 48)) 0

/-- Value of a run of hexadecimal digits. -/
def hexValue (ds : List Char) : Nat :=
  ds.foldl (fun acc c => 16 * acc + (hexDigitVal c).getD 0) 0

/-- Splits an optional leading sign off: `true` when the sign is `-`. -/
def takeSign : List Char → Bool × List Char
  | '-' :: cs => (true, cs)
  | '+' :: cs => (false, cs)
  | cs => (false, cs)

/-- The function `parseInt(string)` with no radix argument, on a character list. -/
def parseIntChars (input : List Char) : JsInt :=
  let (neg, cs) := takeSign (input.dropWhile isStrWhiteSpace)
  let mag : Option Nat :=
    match cs with
    | '0' :: 'x' :: hs | '0' :: 'X' :: hs =>
      let ds := hs.takeWhile (fun c => (hexDigitVal c).isSome)
      if ds.isEmpty then none else some (hexValue ds)
    | _ =>
      let ds := cs.takeWhile isDecDigit
      if ds.isEmpty then none else some (decValue ds)
  match mag with
  | none => .nan
  | some m => .int (if neg then -(m : Int) else (m : Int))

/-- The call `parseInt(v)` on a form field: `undefined` reads as the text
`"undefined"`, which has no digits. -/
def parseInt : Option String → JsInt
  | none => .nan
  | some s => parseIntChars s.data

/-- The optional exponent part `e±ddd` of a decimal literal. -/
def parseExponent : List Char → Int
  | c :: cs =>
    if c = 'e' ∨ c = 'E' then
      let (neg, ds) := takeSign cs
      let es := ds.takeWhile isDecDigit
      if es.isEmpty then 0 else (if neg then -(decValue es : Int) else (decValue es : Int))
    else 0
  | [] => 0

/-- The function `parseFloat(string)` on a character list: the longest prefix
that is a `StrDecimalLiteral`. -/
def parseFloatChars (input : List Char) : JsNum :=
  let (neg, cs) := takeSign (input.dropWhile isStrWhiteSpace)
  if "Infinity".data.isPrefixOf cs then .num (if neg then .negInf else .posInf)
  else
    let intDs := cs.takeWhile isDecDigit
    let rest := cs.dropWhile isDecDigit
    let fracDs : List Char :=
      match rest with
      | '.' :: fs => fs.takeWhile isDecDigit
      | _ => []
    let rest2 : List Char :=
      match rest with
      | '.' :: fs => fs.dropWhile isDecDigit
      | _ => rest
    if intDs.isEmpty && fracDs.isEmpty then .nan
    else
      let mant : ℚ := (decValue (intDs ++ fracDs) : ℚ) / (10 : ℚ) ^ fracDs.length
      let v : ℚ := mant * (10 : ℚ) ^ parseExponent rest2
      .num (.fin (if neg then -v else v))

/-- The call `parseFloat(v)` on a form field. -/
def parseFloat : Option String → JsNum
  | none => .nan
  | some s => parseFloatChars s.data

/-! ## The table `produtos` (`criarTabela`) -/

/-- Timestamps, in seconds. -/
abbrev Timestamp := Nat

/-- One row of `produtos`, column by column as `criarTabela` declares them:
`nome` and `preco` are `NOT NULL`, the other value columns are nullable, and the
two timestamp columns are only ever written by `CURRENT_TIMESTAMP`. -/
structure Row where
  id : Int
  nome : String
  descricao : Option String
  preco : Real64
  estoque : Option Int
  categoria : Option String
  ativo : Option Int
  criado_em : Timestamp
  atualizado_em : Timestamp
  deriving DecidableEq

/-- The store: the rows of `produtos` in rowid order and the `sqlite_sequence`
counter of the table (the largest rowid `AUTOINCREMENT` has handed out). -/
structure Db where
  rows : List Row
  seq : Int
  deriving DecidableEq

/-- The errors a statement of this program can raise. -/
inductive StorageError where
  | constraint
  | full
  | overflow
  deriving DecidableEq

deriving instance DecidableEq for Except

/-- Largest 64-bit signed integer, the largest rowid. -/
def int64Max : Int := 9223372036854775807

/-- Smallest 64-bit signed integer. -/
def int64Min : Int := -9223372036854775808

/-- The primary key holds: no two rows share an id. -/
def Db.WF (db : Db) : Prop := (db.rows.map Row.id).Nodup

instance (db : Db) : Decidable db.WF := by unfold Db.WF; infer_instance

/-- Largest rowid in the table, `none` when the table is empty. -/
def maxRowid : List Row → Option Int
  | [] => none
  | r :: rs =>
    match maxRowid rs with
    | none => some r.id
    | some m => some (max r.id m)

/-- The rowid an `AUTOINCREMENT` insert takes: one more than the largest rowid in
the table (1 for an empty table), raised to one more than the sequence counter;
`SQLITE_FULL` once the largest rowid has been reached. -/
def newRowid (db : Db) : Except StorageError Int :=
  let last : Int := (maxRowid db.rows).getD 0
  if last ≥ int64Max ∨ db.seq ≥ int64Max then .error .full
  else .ok (max (last + 1) (db.seq + 1))

/-- The statement `INSERT INTO produtos (nome, descricao, preco, estoque,
categoria, ativo) VALUES (?, ?, ?, ?, ?, ?)` on its six bound values; the two
timestamp columns take their default `CURRENT_TIMESTAMP`. Yields `lastID`. -/
def sqlInsert (db : Db) (now : Timestamp) (nome : Option String)
    (descricao : Option String) (preco : Option Real64) (estoque : Option Int)
    (categoria : Option String) (ativo : Option Int) : Except StorageError Int × Db :=
  match newRowid db with
  | .error e => (.error e, db)
  | .ok rowid =>
    match nome, preco with
    | some n, some p =>
      (.ok rowid,
       { rows := db.rows ++ [{ id := rowid, nome := n, descricao := descricao, preco := p,
                               estoque := estoque, categoria := categoria, ativo := ativo,
                               criado_em := now, atualizado_em := now }],
         seq := rowid })
    | _, _ => (.error .constraint, db)

/-- The comparison `id = ?`: never true against a bound `NULL`. -/
def idEq (r : Row) (id : Option Int) : Bool :=
  match id with
  | none => false
  | some i => decide (r.id = i)

/-- The statement `UPDATE produtos SET nome = ?, descricao = ?, preco = ?,
estoque = ?, categoria = ?, ativo = ?, atualizado_em = CURRENT_TIMESTAMP
WHERE id = ?`. Yields `changes`. The `NOT NULL` constraints are checked on the
rows the statement rewrites, so a statement that matches no row cannot fail. -/
def sqlUpdate (db : Db) (now : Timestamp) (nome : Option String)
    (descricao : Option String) (preco : Option Real64) (estoque : Option Int)
    (categoria : Option String) (ativo : Option Int) (id : Option Int) :
    Except StorageError Nat × Db :=
  let hits := db.rows.filter (fun r => idEq r id)
  if hits.isEmpty then (.ok 0, db)
  else
    match nome, preco with
    | some n, some p =>
      (.ok hits.length,
       { db with rows := db.rows.map (fun r =>
           if idEq r id then
             { r with nome := n, descricao := descricao, preco := p, estoque := estoque,
                      categoria := categoria, ativo := ativo, atualizado_em := now }
           else r) })
    | _, _ => (.error .constraint, db)

/-- The statement `DELETE FROM produtos WHERE id = ?`. Yields `changes`. -/
def sqlDelete (db : Db) (id : Option Int) : Nat × Db :=
  ((db.rows.filter (fun r => idEq r id)).length,
   { db with rows := db.rows.filter (fun r => !idEq r id) })

/-- The statement `SELECT * FROM produtos WHERE id = ?` run with `db.get`: the
first matching row, if any. -/
def sqlSelectById (db : Db) (id : Option Int) : Option Row :=
  db.rows.find? (fun r => idEq r id)

/-! ## Binding JavaScript values to statement parameters -/

/-- A number bound to a parameter: `NaN` arrives as `NULL`. -/
def bindNum : JsNum → Option Real64
  | .nan => none
  | .num x => some x

/-- An integer-valued number bound to a parameter: `NaN` arrives as `NULL`. -/
def bindInt : JsInt → Option Int
  | .nan => none
  | .int i => some i

/-! ## `inserirProduto`, `atualizarProduto`, `excluirProduto` -/

/-- The object the create and update calls receive. A field that is `none` is
`undefined` in the object. -/
structure ProdutoInput where
  nome : Option String := none
  descricao : Option String := none
  preco : Option JsNum := none
  estoque : Option JsInt := none
  categoria : Option String := none
  ativo : Option Bool := none
  deriving DecidableEq

/-- The expression `produto.descricao || ''`. -/
def descricaoParam (produto : ProdutoInput) : String :=
  match produto.descricao with
  | some s => if strTruthy s then s else ""
  | none => ""

/-- The expression `produto.estoque || 0`, then bound. -/
def estoqueParam (produto : ProdutoInput) : Option Int :=
  match produto.estoque with
  | some n => if n.truthy then bindInt n else some 0
  | none => some 0

/-- The expression `produto.categoria || 'Outros'`. -/
def categoriaParam (produto : ProdutoInput) : String :=
  match produto.categoria with
  | some s => if strTruthy s then s else "Outros"
  | none => "Outros"

/-- The expression `produto.ativo !== false ? 1 : 0`. -/
def ativoParam (produto : ProdutoInput) : Int :=
  if produto.ativo ≠ some false then 1 else 0

/-- The bound value of `produto.nome`: `undefined` leaves the parameter `NULL`. -/
def nomeParam (produto : ProdutoInput) : Option String := produto.nome

/-- The bound value of `produto.preco`: `undefined` and `NaN` both give `NULL`. -/
def precoParam (produto : ProdutoInput) : Option Real64 :=
  match produto.preco with
  | some x => bindNum x
  | none => none

/-- The function `inserirProduto(produto)`: resolves with `this.lastID`. -/
def inserirProduto (db : Db) (now : Timestamp) (produto : ProdutoInput) :
    Except StorageError Int × Db :=
  sqlInsert db now (nomeParam produto) (some (descricaoParam produto)) (precoParam produto)
    (estoqueParam produto) (some (categoriaParam produto)) (some (ativoParam produto))

/-- The function `atualizarProduto(id, produto)`: resolves with `this.changes`. -/
def atualizarProduto (db : Db) (now : Timestamp) (id : JsInt) (produto : ProdutoInput) :
    Except StorageError Nat × Db :=
  sqlUpdate db now (nomeParam produto) (some (descricaoParam produto)) (precoParam produto)
    (estoqueParam produto) (some (categoriaParam produto)) (some (ativoParam produto))
    (bindInt id)

/-- The function `excluirProduto(id)`: resolves with `this.changes`. -/
def excluirProduto (db : Db) (id : JsInt) : Except StorageError Nat × Db :=
  let res := sqlDelete db (bindInt id)
  (.ok res.1, res.2)

/-! ## Reading: `buscarProdutoPorId`, `buscarTodosProdutos` -/

/-- A product as the read calls return it: the row with `ativo`, `preco` and
`estoque` converted. -/
structure Produto where
  id : Int
  nome : String
  descricao : Option String
  preco : JsNum
  estoque : JsInt
  categoria : Option String
  ativo : Bool
  criado_em : Timestamp
  atualizado_em : Timestamp
  deriving DecidableEq

/-- The call `parseFloat(row.preco)` on the number read from a `REAL` column: the
number is printed and parsed back, which gives the same number. -/
def parseFloatPreco (x : Real64) : JsNum := .num x

/-- Drops the zeros a digit run ends with. -/
def stripTrailingZeros (ds : List Char) : List Char :=
  (ds.reverse.dropWhile (fun c => c = '0')).reverse

/-- The text `String(x)` of an integer-valued number `x`. Below 1e21 in magnitude
it is the decimal digits of the number, with a leading `-` when negative. From
1e21 on it is the exponent form: first digit, then `.` and the further digits
when any of them is not zero, then `e+` and the exponent. -/
def numberToString (i : Int) : List Char :=
  let sign : List Char := if i < 0 then ['-'] else []
  if i.natAbs < 10 ^ 21 then sign ++ Nat.toDigits 10 i.natAbs
  else
    match Nat.toDigits 10 i.natAbs with
    | [] => sign
    | d :: rest =>
      let frac := stripTrailingZeros rest
      sign ++ d :: ((if frac.isEmpty then [] else '.' :: frac) ++
        'e' :: '+' :: Nat.toDigits 10 rest.length)

/-- The call `parseInt(row.estoque)` on the value read from the `estoque` column:
the value is turned into text and the text is parsed. `null` gives the text
`"null"`, which has no digits; a number gives `numberToString`, so that from
1e21 on only the digit before the point is read back. -/
def parseIntEstoque : Option Int → JsInt
  | none => parseIntChars "null".data
  | some i => parseIntChars (numberToString i)

/-- The conversion both read calls apply: `{...row, ativo: row.ativo === 1,
preco: parseFloat(row.preco), estoque: parseInt(row.estoque)}`. -/
def converter (row : Row) : Produto :=
  { id := row.id, nome := row.nome, descricao := row.descricao,
    preco := parseFloatPreco row.preco, estoque := parseIntEstoque row.estoque,
    categoria := row.categoria, ativo := decide (row.ativo = some 1),
    criado_em := row.criado_em, atualizado_em := row.atualizado_em }

/-- The function `buscarProdutoPorId(id)`: the converted row, or `null` (`none`). -/
def buscarProdutoPorId (db : Db) (id : JsInt) : Except StorageError (Option Produto) :=
  match sqlSelectById db (bindInt id) with
  | some row => .ok (some (converter row))
  | none => .ok none

/-- The matcher behind SQLite's `LIKE` with no `ESCAPE` clause, pattern first:
`%` matches any run of characters, `_` matches exactly one character, any other
character matches itself up to the case of the ASCII letters. -/
def likeMatch : List Char → List Char → Bool
  | [], s => s.isEmpty
  | c :: p, s =>
    if c = '%' then s.tails.any (fun t => likeMatch p t)
    else
      match s with
      | [] => false
      | d :: t =>
        if c = '_' then likeMatch p t
        else decide (c.toLower = d.toLower) && likeMatch p t

/-- The operator `column LIKE ?` on a nullable text column: `NULL` on `NULL`. -/
def sqlLike (value : Option String) (pattern : String) : Option Bool :=
  match value with
  | none => none
  | some v => some (likeMatch pattern.data v.data)

/-- Three-valued `OR`. -/
def sqlOr : Option Bool → Option Bool → Option Bool
  | some true, _ => some true
  | _, some true => some true
  | some false, some false => some false
  | _, _ => none

/-- The operator `column = ?` on a nullable column: `NULL` on `NULL`. -/
def sqlEq {α : Type} [DecidableEq α] (value : Option α) (param : α) : Option Bool :=
  match value with
  | none => none
  | some v => some (decide (v = param))

/-- A `WHERE` clause keeps the rows on which its expression is true. -/
def sqlIsTrue : Option Bool → Bool
  | some true => true
  | _ => false

/-- The filters object of `buscarTodosProdutos`. A field that is `none` is
`undefined` in the object. -/
structure Filtros where
  search : Option String := none
  categoria : Option String := none
  minPrice : Option JsNum := none
  maxPrice : Option JsNum := none
  ativo : Option Bool := none
  deriving DecidableEq

/-- The conjunct `(nome LIKE ? OR descricao LIKE ?)` with both parameters
`%search%`, appended when `filtros.search` is truthy. -/
def condSearch (filtros : Filtros) (r : Row) : Bool :=
  match filtros.search with
  | some s =>
    if strTruthy s then
      sqlIsTrue (sqlOr (sqlLike (some r.nome) ("%" ++ s ++ "%"))
                       (sqlLike r.descricao ("%" ++ s ++ "%")))
    else true
  | none => true

/-- The conjunct `categoria = ?`, appended when `filtros.categoria` is truthy. -/
def condCategoria (filtros : Filtros) (r : Row) : Bool :=
  match filtros.categoria with
  | some c => if strTruthy c then sqlIsTrue (sqlEq r.categoria c) else true
  | none => true

/-- The operator `<=` on two numeric values: `NULL` when either side is `NULL`. -/
def sqlLe : Option Real64 → Option Real64 → Option Bool
  | some a, some b => some (Real64.le a b)
  | _, _ => none

/-- The conjunct `preco >= ?`, appended when `filtros.minPrice` is truthy. -/
def condMinPrice (filtros : Filtros) (r : Row) : Bool :=
  match filtros.minPrice with
  | some x => if x.truthy then sqlIsTrue (sqlLe (bindNum x) (some r.preco)) else true
  | none => true

/-- The conjunct `preco <= ?`, appended when `filtros.maxPrice` is truthy. -/
def condMaxPrice (filtros : Filtros) (r : Row) : Bool :=
  match filtros.maxPrice with
  | some x => if x.truthy then sqlIsTrue (sqlLe (some r.preco) (bindNum x)) else true
  | none => true

/-- The conjunct `ativo = ?` with parameter `filtros.ativo ? 1 : 0`, appended when
`filtros.ativo !== undefined`. -/
def condAtivo (filtros : Filtros) (r : Row) : Bool :=
  match filtros.ativo with
  | some b => sqlIsTrue (sqlEq r.ativo (if b then 1 else 0))
  | none => true

/-- The `WHERE` clause `1=1 AND ...` that `buscarTodosProdutos` assembles. -/
def whereClause (filtros : Filtros) (r : Row) : Bool :=
  condSearch filtros r && condCategoria filtros r && condMinPrice filtros r &&
  condMaxPrice filtros r && condAtivo filtros r

/-- The clause `ORDER BY criado_em DESC`. Rows with equal `criado_em` may come in
any order; this sort keeps them in table order. -/
def orderByCriadoEmDesc (rows : List Row) : List Row :=
  rows.insertionSort (fun a b => b.criado_em ≤ a.criado_em)

/-- The function `buscarTodosProdutos(filtros)`. -/
def buscarTodosProdutos (db : Db) (filtros : Filtros) : Except StorageError (List Produto) :=
  .ok ((orderByCriadoEmDesc (db.rows.filter (whereClause filtros))).map converter)

/-! ## `buscarCategorias` -/

/-- The order `ORDER BY` puts on a nullable text column under the default
collation: `NULL` first, then the texts compared bytewise, which for UTF-8 is the
lexicographic order on their characters. -/
def sqlTextLe : Option String → Option String → Bool
  | none, _ => true
  | some _, none => false
  | some a, some b => decide (a.data ≤ b.data)

/-- The function `buscarCategorias()`: `SELECT DISTINCT categoria FROM produtos
WHERE categoria IS NOT NULL ORDER BY categoria`, then `rows.map(row =>
row.categoria)`. -/
def buscarCategorias (db : Db) : Except StorageError (List (Option String)) :=
  .ok ((((db.rows.map Row.categoria).filter (fun c => c.isSome)).dedup).insertionSort
    (fun a b => sqlTextLe a b = true))

/-! ## `buscarEstatisticas` -/

/-- One step of the integer `SUM`: a `NULL` is skipped, the first value starts
the sum, and an addition that leaves the 64-bit range raises an error. -/
def sumStep (acc : Option Int) (x : Option Int) : Except StorageError (Option Int) :=
  match x, acc with
  | none, _ => .ok acc
  | some v, none => .ok (some v)
  | some v, some a =>
    if a + v > int64Max ∨ a + v < int64Min then .error .overflow else .ok (some (a + v))

/-- The aggregate `SUM` over integers: `NULL`s are skipped, the result is `NULL`
when nothing was summed, and a 64-bit overflow at any point raises an error. -/
def sqlSumInt (xs : List (Option Int)) : Except StorageError (Option Int) :=
  xs.foldlM sumStep none

/-- The aggregate `AVG` over a `REAL NOT NULL` column: `NULL` on no rows, and
`NULL` when the sum is `NaN` (both infinities present). -/
def sqlAvgReal (xs : List Real64) : Option Real64 :=
  if xs.isEmpty then none
  else if xs.contains .posInf then (if xs.contains .negInf then none else some .posInf)
  else if xs.contains .negInf then some .negInf
  else some (.fin ((xs.map (fun x => match x with | .fin q => q | _ => 0)).sum / xs.length))

/-- The row `buscarEstatisticas` resolves with. -/
structure Estatisticas where
  total : Int
  com_estoque : Option Int
  sem_estoque : Option Int
  estoque_baixo : Option Int
  preco_medio : Option Real64
  total_estoque : Option Int
  deriving DecidableEq

/-- The expression `CASE WHEN c THEN 1 ELSE 0 END`: 1 when `c` is true. -/
def caseOne (c : Option Bool) : Option Int := some (if sqlIsTrue c then 1 else 0)

/-- The comparison `estoque > 0`. -/
def estoquePos (r : Row) : Option Bool := r.estoque.map (fun e => decide (e > 0))

/-- The comparison `estoque = 0`. -/
def estoqueZero (r : Row) : Option Bool := r.estoque.map (fun e => decide (e = 0))

/-- The comparison `estoque > 0 AND estoque <= 10`. -/
def estoqueBaixo (r : Row) : Option Bool :=
  r.estoque.map (fun e => decide (e > 0) && decide (e ≤ 10))

/-- The function `buscarEstatisticas()`: the six aggregates over the rows
`WHERE ativo = 1`. -/
def buscarEstatisticas (db : Db) : Except StorageError Estatisticas := do
  let ativos := db.rows.filter (fun r => sqlIsTrue (sqlEq r.ativo 1))
  let com ← sqlSumInt (ativos.map (fun r => caseOne (estoquePos r)))
  let sem ← sqlSumInt (ativos.map (fun r => caseOne (estoqueZero r)))
  let baixo ← sqlSumInt (ativos.map (fun r => caseOne (estoqueBaixo r)))
  let soma ← sqlSumInt (ativos.map Row.estoque)
  pure { total := ativos.length, com_estoque := com, sem_estoque := sem,
         estoque_baixo := baixo, preco_medio := sqlAvgReal (ativos.map Row.preco),
         total_estoque := soma }

/-! ## The routes of `server.js` -/

/-- The url-encoded body of a form post. A field that is `none` is absent. -/
structure Body where
  nome : Option String := none
  descricao : Option String := none
  preco : Option String := none
  estoque : Option String := none
  categoria : Option String := none
  ativo : Option String := none
  deriving DecidableEq

/-- What a handler answers with. -/
inductive Response where
  | redirect (location : String)
  | render (status : Nat) (view : String)
  | json (status : Nat) (produtos : List Produto)
  | jsonError (status : Nat)
  deriving DecidableEq

/-- The object `POST /produtos` builds from the body. -/
def produtoDoBody (body : Body) : ProdutoInput :=
  { nome := body.nome,
    descricao := body.descricao,
    preco := some (parseFloat body.preco),
    estoque := some (parseInt body.estoque),
    categoria := body.categoria,
    ativo := some (decide (body.ativo = some "true")) }

/-- The handler of `POST /produtos`. -/
def postProdutos (db : Db) (now : Timestamp) (body : Body) : Response × Db :=
  match inserirProduto db now (produtoDoBody body) with
  | (.ok id, db') => (.redirect ("/produtos/" ++ toString id), db')
  | (.error _, db') => (.render 500 "error", db')

/-- The handler of `GET /api/produtos`: `buscarTodosProdutos()` with no argument,
so that the parameter takes its default `{}`. -/
def getApiProdutos (db : Db) : Response :=
  match buscarTodosProdutos db {} with
  | .ok produtos => .json 200 produtos
  | .error _ => .jsonError 500

/-! ## The reading of "contains as a substring" -/

/-- The words of the search contract: `s` occurs in `t` as a substring, up to
the case of the ASCII letters. -/
def ocorreEm (s t : String) : Prop :=
  (s.data.map Char.toLower) <:+: (t.data.map Char.toLower)

instance (s t : String) : Decidable (ocorreEm s t) := by unfold ocorreEm; infer_instance

/-! ## Sample data -/

/-- A sample active row. -/
def rowWidget : Row :=
  { id := 1, nome := "Widget", descricao := some "", preco := .fin 5, estoque := some 5,
    categoria := some "Tools", ativo := some 1, criado_em := 100, atualizado_em := 100 }

/-- A sample inactive row. -/
def rowGadget : Row :=
  { id := 2, nome := "Gadget", descricao := some "old", preco := .fin 7, estoque := some 0,
    categoria := some "Books", ativo := some 0, criado_em := 200, atualizado_em := 250 }

/-- A sample input whose `categoria` is the empty text. -/
def inputCategoriaVazia : ProdutoInput :=
  { nome := some "Widget", preco := some (.num (.fin 5)), categoria := some "" }

/-- A sample input with every field given. -/
def inputCompleto : ProdutoInput :=
  { nome := some "Lamp", descricao := some "desk lamp", preco := some (.num (.fin 12)),
    estoque := some (.int 3), categoria := some "Home", ativo := some false }

/-- The product read back after `inputCategoriaVazia` went into the empty store
at time 100. -/
def produtoOutros : Produto :=
  { id := 1, nome := "Widget", descricao := some "", preco := .num (.fin 5),
    estoque := .int 0, categoria := some "Outros", ativo := true,
    criado_em := 100, atualizado_em := 100 }

/-- The row `inputCompleto` becomes when it goes into `dbUm` at time 300. -/
def rowLamp : Row :=
  { id := 2, nome := "Lamp", descricao := some "desk lamp", preco := .fin 12,
    estoque := some 3, categoria := some "Home", ativo := some 0,
    criado_em := 300, atualizado_em := 300 }

/-- A sample form body whose `estoque` is not a number. -/
def bodyEstoqueRuim : Body :=
  { nome := some "Widget", preco := some "9.5", estoque := some "abc" }

/-- A sample form body whose `preco` is not a number. -/
def bodyPrecoRuim : Body :=
  { nome := some "Widget", preco := some "abc", estoque := some "5" }

/-- A sample input whose `estoque` is 1e21. -/
def inputEstoqueGrande : ProdutoInput :=
  { nome := some "Widget", preco := some (.num (.fin 5)),
    estoque := some (.int 1000000000000000000000) }

/-- The empty store. -/
def dbVazio : Db := { rows := [], seq := 0 }

/-- A store with one active row. -/
def dbUm : Db := { rows := [rowWidget], seq := 1 }

/-- A store with one active and one inactive row. -/
def dbDois : Db := { rows := [rowWidget, rowGadget], seq := 2 }

/-- A store whose only row is inactive. -/
def dbInativo : Db := { rows := [rowGadget], seq := 2 }

/-! ## Lemmas on the aggregates -/

theorem foldlM_sumStep_some (l : List Int) (a : Int) (r : Option Int)
    (h : (l.map some).foldlM sumStep (some a) = .ok r) : r = some (a + l.sum) := by
  induction l generalizing a with
  | nil =>
    simp [List.foldlM, pure, Except.pure] at h
    simp [h]
  | cons x t ih =>
    simp only [List.map_cons, List.foldlM_cons, sumStep] at h
    by_cases hov : a + x > int64Max ∨ a + x < int64Min
    · simp [hov, bind, Except.bind] at h
    · simp only [hov, if_false, bind, Except.bind] at h
      have := ih (a + x) h
      simp [this, add_assoc]

theorem sqlSumInt_some_ok (l : List Int) (r : Option Int)
    (h : sqlSumInt (l.map some) = .ok r) : r = if l = [] then none else some l.sum := by
  unfold sqlSumInt at h
  cases l with
  | nil =>
    simp [List.foldlM, pure, Except.pure] at h
    simp [h]
  | cons x t =>
    simp only [List.map_cons, List.foldlM_cons, sumStep, bind, Except.bind] at h
    have := foldlM_sumStep_some t x r h
    simp [this]

theorem foldlM_sumStep_nonneg (l : List Int) (a : Int) (ha : 0 ≤ a)
    (hl : ∀ x ∈ l, 0 ≤ x) (hb : a + l.sum ≤ int64Max) :
    (l.map some).foldlM sumStep (some a) = .ok (some (a + l.sum)) := by
  induction l generalizing a with
  | nil => simp [List.foldlM, pure, Except.pure]
  | cons x t ih =>
    have hx : 0 ≤ x := hl x (by simp)
    have ht : ∀ y ∈ t, 0 ≤ y := fun y hy => hl y (by simp [hy])
    have hts : 0 ≤ t.sum := List.sum_nonneg ht
    simp only [List.sum_cons] at hb
    have h1 : ¬ (a + x > int64Max ∨ a + x < int64Min) := by
      unfold int64Min
      omega
    simp only [List.map_cons, List.foldlM_cons, sumStep, h1, if_false, bind, Except.bind]
    rw [ih (a + x) (by omega) ht (by omega)]
    simp [add_assoc]

theorem sqlSumInt_nonneg (l : List Int) (hl : ∀ x ∈ l, 0 ≤ x) (hb : l.sum ≤ int64Max) :
    sqlSumInt (l.map some) = .ok (if l = [] then none else some l.sum) := by
  unfold sqlSumInt
  cases l with
  | nil => simp [List.foldlM, pure, Except.pure]
  | cons x t =>
    have hx : 0 ≤ x := hl x (by simp)
    have ht : ∀ y ∈ t, 0 ≤ y := fun y hy => hl y (by simp [hy])
    simp only [List.sum_cons] at hb
    simp only [List.map_cons, List.foldlM_cons, sumStep, bind, Except.bind]
    rw [foldlM_sumStep_nonneg t x hx ht hb]
    simp

theorem ativos_nil_of_none_active (db : Db) (h : ∀ r ∈ db.rows, r.ativo ≠ some 1) :
    db.rows.filter (fun r => sqlIsTrue (sqlEq r.ativo 1)) = [] := by
  rw [List.filter_eq_nil_iff]
  intro r hr
  have := h r hr
  cases ha : r.ativo with
  | none => simp [sqlEq, sqlIsTrue]
  | some v =>
    have hv : v ≠ 1 := by
      intro hv
      exact this (by rw [ha, hv])
    simp [sqlEq, sqlIsTrue, hv]

theorem sqlIsTrue_sqlEq_ativo (r : Row) :
    sqlIsTrue (sqlEq r.ativo 1) = true ↔ r.ativo = some 1 := by
  cases ha : r.ativo with
  | none => simp [sqlEq, sqlIsTrue]
  | some v =>
    by_cases hv : v = 1
    · simp [sqlEq, sqlIsTrue, hv]
    · simp [sqlEq, sqlIsTrue, hv]

theorem indicadores_linha (r : Row) (e : Int) (he : r.estoque = some e) (h0 : 0 ≤ e) :
    (if sqlIsTrue (estoquePos r) then 1 else 0 : Int) +
      (if sqlIsTrue (estoqueZero r) then 1 else 0 : Int) = 1 ∧
    (if sqlIsTrue (estoqueBaixo r) then 1 else 0 : Int) ≤
      (if sqlIsTrue (estoquePos r) then 1 else 0 : Int) ∧
    (if sqlIsTrue (estoquePos r) then 1 else 0 : Int) ≤ e := by
  simp only [estoquePos, estoqueZero, estoqueBaixo, he, Option.map_some', sqlIsTrue]
  by_cases hlt : e > 0
  · have hne : e ≠ 0 := by omega
    by_cases h10 : e ≤ 10
    · simp [hlt, hne, h10]; omega
    · simp [hlt, hne, h10]; omega
  · have heq : e = 0 := by omega
    subst heq
    simp

theorem contagens_estoque (l : List Row)
    (h : ∀ r ∈ l, ∃ e, r.estoque = some e ∧ 0 ≤ e) :
    (l.map (fun r => (if sqlIsTrue (estoquePos r) then 1 else 0 : Int))).sum +
      (l.map (fun r => (if sqlIsTrue (estoqueZero r) then 1 else 0 : Int))).sum = l.length ∧
    (l.map (fun r => (if sqlIsTrue (estoqueBaixo r) then 1 else 0 : Int))).sum ≤
      (l.map (fun r => (if sqlIsTrue (estoquePos r) then 1 else 0 : Int))).sum ∧
    (l.map (fun r => (if sqlIsTrue (estoquePos r) then 1 else 0 : Int))).sum ≤
      (l.map (fun r => r.estoque.getD 0)).sum ∧
    l.map Row.estoque = (l.map (fun r => r.estoque.getD 0)).map some := by
  induction l with
  | nil => simp
  | cons r t ih =>
    obtain ⟨e, he, hpos⟩ := h r (by simp)
    obtain ⟨h1, h2, h3, h4⟩ := ih (fun x hx => h x (by simp [hx]))
    obtain ⟨k1, k2, k3⟩ := indicadores_linha r e he hpos
    have hg : r.estoque.getD 0 = e := by simp [he]
    simp only [List.map_cons, List.sum_cons, List.length_cons, h4, hg]
    refine ⟨?_, ?_, ?_, ?_⟩
    · push_cast
      omega
    · omega
    · omega
    · simp [he]

theorem caseOne_map (l : List Row) (c : Row → Option Bool) :
    l.map (fun r => caseOne (c r)) =
      (l.map (fun r => (if sqlIsTrue (c r) then 1 else 0 : Int))).map some := by
  simp [caseOne, List.map_map, Function.comp_def]

theorem indicador_bounds (l : List Row) (c : Row → Option Bool) :
    (∀ x ∈ l.map (fun r => (if sqlIsTrue (c r) then 1 else 0 : Int)), 0 ≤ x) ∧
    (l.map (fun r => (if sqlIsTrue (c r) then 1 else 0 : Int))).sum ≤ l.length := by
  induction l with
  | nil => simp
  | cons r t ih =>
    obtain ⟨h1, h2⟩ := ih
    refine ⟨?_, ?_⟩
    · intro x hx
      simp only [List.map_cons, List.mem_cons] at hx
      rcases hx with hx | hx
      · subst hx
        split <;> omega
      · exact h1 x hx
    · simp only [List.map_cons, List.sum_cons, List.length_cons]
      push_cast
      split <;> omega

theorem buscarEstatisticas_ok_iff (db : Db) (st : Estatisticas) :
    buscarEstatisticas db = .ok st ↔
      ∃ com sem baixo soma,
        sqlSumInt ((db.rows.filter (fun r => sqlIsTrue (sqlEq r.ativo 1))).map
          (fun r => caseOne (estoquePos r))) = .ok com ∧
        sqlSumInt ((db.rows.filter (fun r => sqlIsTrue (sqlEq r.ativo 1))).map
          (fun r => caseOne (estoqueZero r))) = .ok sem ∧
        sqlSumInt ((db.rows.filter (fun r => sqlIsTrue (sqlEq r.ativo 1))).map
          (fun r => caseOne (estoqueBaixo r))) = .ok baixo ∧
        sqlSumInt ((db.rows.filter (fun r => sqlIsTrue (sqlEq r.ativo 1))).map
          Row.estoque) = .ok soma ∧
        st = { total := (db.rows.filter (fun r => sqlIsTrue (sqlEq r.ativo 1))).length,
               com_estoque := com, sem_estoque := sem, estoque_baixo := baixo,
               preco_medio := sqlAvgReal
                 ((db.rows.filter (fun r => sqlIsTrue (sqlEq r.ativo 1))).map Row.preco),
               total_estoque := soma } := by
  unfold buscarEstatisticas
  simp only [bind, Except.bind, pure, Except.pure]
  constructor
  · intro h
    cases hc : sqlSumInt ((db.rows.filter (fun r => sqlIsTrue (sqlEq r.ativo 1))).map
        (fun r => caseOne (estoquePos r))) with
    | error e => simp [hc] at h
    | ok com =>
      cases hs : sqlSumInt ((db.rows.filter (fun r => sqlIsTrue (sqlEq r.ativo 1))).map
          (fun r => caseOne (estoqueZero r))) with
      | error e => simp [hc, hs] at h
      | ok sem =>
        cases hb : sqlSumInt ((db.rows.filter (fun r => sqlIsTrue (sqlEq r.ativo 1))).map
            (fun r => caseOne (estoqueBaixo r))) with
        | error e => simp [hc, hs, hb] at h
        | ok baixo =>
          cases hsm : sqlSumInt ((db.rows.filter (fun r => sqlIsTrue (sqlEq r.ativo 1))).map
              Row.estoque) with
          | error e => simp [hc, hs, hb, hsm] at h
          | ok soma =>
            refine ⟨com, sem, baixo, soma, rfl, rfl, rfl, rfl, ?_⟩
            simp only [hc, hs, hb, hsm] at h
            simpa using h.symm
  · rintro ⟨com, sem, baixo, soma, hc, hs, hb, hsm, rfl⟩
    simp [hc, hs, hb, hsm]

/-! ## Statistics -/

/-- C1, on the code: when no stored record has `ativo = 1` (the empty store
included), `buscarEstatisticas` resolves with `total = 0` and with the five other
aggregates `NULL`, not 0: `SUM` and `AVG` over no rows are `NULL`. -/
theorem estatisticas_sem_ativos (db : Db) (h : ∀ r ∈ db.rows, r.ativo ≠ some 1) :
    buscarEstatisticas db =
      .ok { total := 0, com_estoque := none, sem_estoque := none, estoque_baixo := none,
            preco_medio := none, total_estoque := none } := by
  unfold buscarEstatisticas
  rw [ativos_nil_of_none_active db h]
  rfl

theorem estatisticas_sem_ativos_witness :
    (∀ r ∈ dbVazio.rows, r.ativo ≠ some 1) ∧
    buscarEstatisticas dbVazio =
      .ok { total := 0, com_estoque := none, sem_estoque := none, estoque_baixo := none,
            preco_medio := none, total_estoque := none } :=
  ⟨by decide, estatisticas_sem_ativos dbVazio (by decide)⟩

/-- C10: in a store with at least one active record, all of whose active records
have a non-null `estoque >= 0`, every row `buscarEstatisticas` resolves with has
`total = com_estoque + sem_estoque`, `estoque_baixo <= com_estoque` and
`total_estoque >= com_estoque`; the call does resolve when the active stock sums
within the 64-bit range; and two stores with the same active records get the same
answer, so that inactive records contribute to no aggregate. -/
theorem estatisticas_invariantes (db : Db)
    (hne : ∃ r ∈ db.rows, r.ativo = some 1)
    (hest : ∀ r ∈ db.rows, r.ativo = some 1 → ∃ e, r.estoque = some e ∧ 0 ≤ e) :
    (∀ st, buscarEstatisticas db = .ok st →
      ∃ c s b t, st.com_estoque = some c ∧ st.sem_estoque = some s ∧
        st.estoque_baixo = some b ∧ st.total_estoque = some t ∧
        st.total = c + s ∧ b ≤ c ∧ t ≥ c) ∧
    ((((db.rows.filter (fun r => decide (r.ativo = some 1))).map
          (fun r => r.estoque.getD 0)).sum ≤ int64Max ∧
        ((db.rows.filter (fun r => decide (r.ativo = some 1))).length : Int) ≤ int64Max) →
      ∃ st, buscarEstatisticas db = .ok st) ∧
    (∀ db2 : Db, db2.rows.filter (fun r => decide (r.ativo = some 1)) =
        db.rows.filter (fun r => decide (r.ativo = some 1)) →
      buscarEstatisticas db2 = buscarEstatisticas db) := by
  have hfilt : ∀ d : Db, d.rows.filter (fun r => sqlIsTrue (sqlEq r.ativo 1)) =
      d.rows.filter (fun r => decide (r.ativo = some 1)) := by
    intro d
    apply List.filter_congr
    intro r _
    by_cases hr : r.ativo = some 1
    · rw [(sqlIsTrue_sqlEq_ativo r).2 hr]
      simp [hr]
    · have : sqlIsTrue (sqlEq r.ativo 1) ≠ true := fun hc => hr ((sqlIsTrue_sqlEq_ativo r).1 hc)
      simp [hr, this]
  have hAll : ∀ r ∈ db.rows.filter (fun r => decide (r.ativo = some 1)),
      ∃ e, r.estoque = some e ∧ 0 ≤ e := by
    intro r hr
    rw [List.mem_filter] at hr
    exact hest r hr.1 (by simpa using hr.2)
  have hnil : db.rows.filter (fun r => decide (r.ativo = some 1)) ≠ [] := by
    obtain ⟨r, hr, ha⟩ := hne
    intro hc
    have : r ∈ db.rows.filter (fun r => decide (r.ativo = some 1)) := by
      rw [List.mem_filter]
      exact ⟨hr, by simpa using ha⟩
    rw [hc] at this
    exact absurd this (List.not_mem_nil r)
  obtain ⟨k1, k2, k3, k4⟩ := contagens_estoque _ hAll
  refine ⟨?_, ?_, ?_⟩
  · intro st hst
    rw [buscarEstatisticas_ok_iff, hfilt db] at hst
    obtain ⟨com, sem, baixo, soma, hc, hs, hb, hsm, rfl⟩ := hst
    rw [caseOne_map] at hc hs hb
    rw [k4] at hsm
    have e1 := sqlSumInt_some_ok _ _ hc
    have e2 := sqlSumInt_some_ok _ _ hs
    have e3 := sqlSumInt_some_ok _ _ hb
    have e4 := sqlSumInt_some_ok _ _ hsm
    simp only [List.map_eq_nil_iff, hnil, if_false] at e1 e2 e3 e4
    refine ⟨_, _, _, _, e1, e2, e3, e4, ?_, k2, k3⟩
    exact k1.symm
  · rintro ⟨hsum, hlen⟩
    have b1 := indicador_bounds (db.rows.filter (fun r => decide (r.ativo = some 1))) estoquePos
    have b2 := indicador_bounds (db.rows.filter (fun r => decide (r.ativo = some 1))) estoqueZero
    have b3 := indicador_bounds (db.rows.filter (fun r => decide (r.ativo = some 1))) estoqueBaixo
    have hnn : ∀ x ∈ (db.rows.filter (fun r => decide (r.ativo = some 1))).map
        (fun r => r.estoque.getD 0), 0 ≤ x := by
      intro x hx
      rw [List.mem_map] at hx
      obtain ⟨r, hr, rfl⟩ := hx
      obtain ⟨e, he, h0⟩ := hAll r hr
      simp [he, h0]
    have c1 := sqlSumInt_nonneg _ b1.1 (le_trans b1.2 hlen)
    have c2 := sqlSumInt_nonneg _ b2.1 (le_trans b2.2 hlen)
    have c3 := sqlSumInt_nonneg _ b3.1 (le_trans b3.2 hlen)
    have c4 := sqlSumInt_nonneg _ hnn hsum
    rw [← caseOne_map, ← hfilt db] at c1 c2 c3
    rw [← k4, ← hfilt db] at c4
    exact ⟨_, (buscarEstatisticas_ok_iff db _).2 ⟨_, _, _, _, c1, c2, c3, c4, rfl⟩⟩
  · intro db2 h2
    unfold buscarEstatisticas
    rw [hfilt db2, hfilt db, h2]

theorem estatisticas_invariantes_witness :
    (∃ r ∈ dbDois.rows, r.ativo = some 1) ∧
    (∀ r ∈ dbDois.rows, r.ativo = some 1 → ∃ e, r.estoque = some e ∧ 0 ≤ e) ∧
    buscarEstatisticas dbDois =
      .ok { total := 1, com_estoque := some 1, sem_estoque := some 0,
            estoque_baixo := some 1, preco_medio := some (.fin 5),
            total_estoque := some 5 } ∧
    buscarEstatisticas dbUm = buscarEstatisticas dbDois :=
  have hne : ∃ r ∈ dbDois.rows, r.ativo = some 1 := ⟨rowWidget, by decide, by decide⟩
  have hest : ∀ r ∈ dbDois.rows, r.ativo = some 1 →
      ∃ e, r.estoque = some e ∧ 0 ≤ e := by
    intro r hr ha
    simp only [dbDois, List.mem_cons, List.mem_singleton, List.not_mem_nil, or_false] at hr
    rcases hr with rfl | rfl
    · exact ⟨5, rfl, by decide⟩
    · exact absurd ha (by decide)
  ⟨hne, hest, by
    simp [buscarEstatisticas, dbDois, rowWidget, rowGadget, sqlEq, sqlIsTrue, sqlSumInt,
      sumStep, caseOne, estoquePos, estoqueZero, estoqueBaixo, sqlAvgReal, bind, Except.bind,
      pure, Except.pure],
   (estatisticas_invariantes dbDois hne hest).2.2 dbUm (by decide)⟩

/-! ## Categories -/

theorem sqlTextLe_total (a b : Option String) : sqlTextLe a b = true ∨ sqlTextLe b a = true := by
  cases a with
  | none => simp [sqlTextLe]
  | some x =>
    cases b with
    | none => simp [sqlTextLe]
    | some y =>
      simp only [sqlTextLe, decide_eq_true_eq]
      exact le_total x.data y.data

theorem sqlTextLe_trans (a b c : Option String) (h1 : sqlTextLe a b = true)
    (h2 : sqlTextLe b c = true) : sqlTextLe a c = true := by
  cases a with
  | none => simp [sqlTextLe]
  | some x =>
    cases b with
    | none => simp [sqlTextLe] at h1
    | some y =>
      cases c with
      | none => simp [sqlTextLe] at h2
      | some z =>
        simp only [sqlTextLe, decide_eq_true_eq] at *
        exact le_trans h1 h2

/-- C8: `buscarCategorias` resolves with a list that has no duplicates, is in
strictly ascending lexicographic order, holds no `NULL`, and whose elements are
exactly the non-null `categoria` values of the stored records. -/
theorem buscarCategorias_spec (db : Db) :
    ∃ cs, buscarCategorias db = .ok cs ∧ cs.Nodup ∧
      cs.Pairwise (fun x y => ∃ a b, x = some a ∧ y = some b ∧ a < b) ∧
      none ∉ cs ∧
      ∀ c : String, some c ∈ cs ↔ ∃ r ∈ db.rows, r.categoria = some c := by
  refine ⟨_, rfl, ?_, ?_, ?_, ?_⟩
  · exact (List.perm_insertionSort _ _).nodup_iff.2 (List.nodup_dedup _)
  · have hs := @List.sorted_insertionSort _ (fun a b : Option String => sqlTextLe a b = true)
      _ ⟨sqlTextLe_total⟩ ⟨sqlTextLe_trans⟩
      (((db.rows.map Row.categoria).filter (fun c => c.isSome)).dedup)
    have hn : (List.insertionSort (fun a b : Option String => sqlTextLe a b = true)
        (((db.rows.map Row.categoria).filter (fun c => c.isSome)).dedup)).Pairwise (· ≠ ·) :=
      (List.perm_insertionSort _ _).nodup_iff.2 (List.nodup_dedup _)
    have hmem : ∀ x ∈ List.insertionSort (fun a b : Option String => sqlTextLe a b = true)
        (((db.rows.map Row.categoria).filter (fun c => c.isSome)).dedup), x.isSome = true := by
      intro x hx
      rw [(List.perm_insertionSort _ _).mem_iff, List.mem_dedup, List.mem_filter] at hx
      exact hx.2
    refine List.Pairwise.imp_of_mem ?_ (List.Pairwise.and hs hn)
    intro x y hx hy hxy
    obtain ⟨a, rfl⟩ := Option.isSome_iff_exists.1 (hmem x hx)
    obtain ⟨b, rfl⟩ := Option.isSome_iff_exists.1 (hmem y hy)
    refine ⟨a, b, rfl, rfl, ?_⟩
    obtain ⟨hle, hne⟩ := hxy
    simp only [sqlTextLe, decide_eq_true_eq] at hle
    rw [String.lt_iff_toList_lt]
    refine lt_of_le_of_ne hle ?_
    intro heq
    apply hne
    congr 1
    exact String.ext heq
  · intro hc
    rw [(List.perm_insertionSort _ _).mem_iff, List.mem_dedup, List.mem_filter] at hc
    simp at hc
  · intro c
    rw [(List.perm_insertionSort _ _).mem_iff, List.mem_dedup, List.mem_filter, List.mem_map]
    constructor
    · rintro ⟨⟨r, hr, hrc⟩, _⟩
      exact ⟨r, hr, hrc⟩
    · rintro ⟨r, hr, hrc⟩
      exact ⟨⟨r, hr, hrc⟩, rfl⟩

/-! ## Listing -/

theorem whereClause_vazio (r : Row) : whereClause {} r = true := rfl

theorem orderBy_perm (rows : List Row) : (orderByCriadoEmDesc rows).Perm rows :=
  List.perm_insertionSort _ _

theorem orderBy_sorted (rows : List Row) :
    (orderByCriadoEmDesc rows).Pairwise (fun a b => b.criado_em ≤ a.criado_em) :=
  @List.sorted_insertionSort _ (fun a b : Row => b.criado_em ≤ a.criado_em) _
    ⟨fun a b => le_total b.criado_em a.criado_em⟩
    ⟨fun _ _ _ h1 h2 => le_trans h2 h1⟩ rows

/-- C4: with an empty filters object, and on the route that passes no argument,
`buscarTodosProdutos` resolves with every stored record exactly once (a
permutation of the converted rows); and for every filters object the list it
resolves with is in non-increasing order of `criado_em`. -/
theorem buscarTodosProdutos_ordem (db : Db) :
    (∃ ps, buscarTodosProdutos db {} = .ok ps ∧ ps.Perm (db.rows.map converter) ∧
      getApiProdutos db = .json 200 ps) ∧
    (∀ filtros : Filtros, ∃ ps, buscarTodosProdutos db filtros = .ok ps ∧
      ps.Pairwise (fun a b => a.criado_em ≥ b.criado_em)) := by
  refine ⟨⟨_, rfl, ?_, rfl⟩, ?_⟩
  · have hf : db.rows.filter (whereClause {}) = db.rows := by
      rw [List.filter_eq_self]
      intro r _
      exact whereClause_vazio r
    rw [hf]
    exact (orderBy_perm db.rows).map converter
  · intro filtros
    refine ⟨_, rfl, ?_⟩
    rw [List.pairwise_map]
    exact orderBy_sorted _

/-! ## What the filters do select -/

theorem likeMatch_percent (p t : List Char) :
    likeMatch ('%' :: p) t = true ↔ ∃ a u, t = a ++ u ∧ likeMatch p u = true := by
  simp only [likeMatch, if_true, List.any_eq_true, List.mem_tails]
  constructor
  · rintro ⟨u, hu, h⟩
    obtain ⟨a, rfl⟩ := hu
    exact ⟨a, u, rfl, h⟩
  · rintro ⟨a, u, rfl, h⟩
    exact ⟨u, ⟨a, rfl⟩, h⟩

theorem likeMatch_literal (s q t : List Char) (hs : ∀ c ∈ s, c ≠ '%' ∧ c ≠ '_') :
    likeMatch (s ++ q) t = true ↔
      ∃ t1 t2, t = t1 ++ t2 ∧ t1.map Char.toLower = s.map Char.toLower ∧
        likeMatch q t2 = true := by
  induction s generalizing t with
  | nil =>
    simp only [List.nil_append, List.map_nil, List.map_eq_nil_iff]
    constructor
    · intro h
      exact ⟨[], t, rfl, rfl, h⟩
    · rintro ⟨t1, t2, rfl, rfl, h⟩
      exact h
  | cons c s ih =>
    have hc := hs c (by simp)
    have hs' : ∀ d ∈ s, d ≠ '%' ∧ d ≠ '_' := fun d hd => hs d (by simp [hd])
    cases t with
    | nil =>
      simp only [List.cons_append, likeMatch, hc.1, if_false]
      constructor
      · intro h
        exact absurd h (by simp)
      · rintro ⟨t1, t2, h, h1, _⟩
        have : t1 = [] := by
          cases t1 with
          | nil => rfl
          | cons x y => simp at h
        subst this
        simp at h1
    | cons d t =>
      have hstep : likeMatch (c :: s ++ q) (d :: t) =
          (decide (c.toLower = d.toLower) && likeMatch (s ++ q) t) := by
        simp only [List.cons_append, likeMatch, hc.1, hc.2, if_false]
        rfl
      rw [hstep, Bool.and_eq_true, decide_eq_true_eq, ih t hs']
      constructor
      · rintro ⟨hcd, t1, t2, rfl, h1, h2⟩
        exact ⟨d :: t1, t2, rfl, by simp [hcd, h1], h2⟩
      · rintro ⟨t1, t2, h, h1, h2⟩
        cases t1 with
        | nil => simp at h1
        | cons x y =>
          simp only [List.cons_append, List.cons.injEq] at h
          obtain ⟨rfl, rfl⟩ := h
          simp only [List.map_cons, List.cons.injEq] at h1
          exact ⟨h1.1.symm, y, t2, rfl, h1.2, h2⟩

theorem likeMatch_percent_only (t : List Char) : likeMatch ['%'] t = true := by
  rw [likeMatch_percent]
  exact ⟨t, [], by simp, rfl⟩

theorem like_substring (s t : List Char) (hs : ∀ c ∈ s, c ≠ '%' ∧ c ≠ '_') :
    likeMatch ('%' :: (s ++ ['%'])) t = true ↔
      (s.map Char.toLower) <:+: (t.map Char.toLower) := by
  rw [likeMatch_percent]
  constructor
  · rintro ⟨a, u, rfl, h⟩
    rw [likeMatch_literal s ['%'] u hs] at h
    obtain ⟨t1, t2, rfl, h1, _⟩ := h
    refine ⟨a.map Char.toLower, t2.map Char.toLower, ?_⟩
    simp [h1]
  · rintro ⟨x, y, h⟩
    have h' : t.map Char.toLower = x ++ (s.map Char.toLower ++ y) := by
      rw [← h, List.append_assoc]
    obtain ⟨a, u, rfl, ha, hu⟩ := List.map_eq_append_iff.1 h'
    obtain ⟨t1, t2, rfl, h1, h2⟩ := List.map_eq_append_iff.1 hu
    refine ⟨a, t1 ++ t2, rfl, ?_⟩
    rw [likeMatch_literal s ['%'] (t1 ++ t2) hs]
    exact ⟨t1, t2, rfl, h1, likeMatch_percent_only t2⟩

theorem strTruthy_of_ne (s : String) (h : s ≠ "") : strTruthy s = true := by
  have hne : s.data ≠ [] := fun hc => h (String.ext hc)
  cases hd : s.data with
  | nil => exact absurd hd hne
  | cons a t => simp [strTruthy, hd]

theorem like_substring_false (s t : List Char) (hs : ∀ c ∈ s, c ≠ '%' ∧ c ≠ '_')
    (h : likeMatch ('%' :: (s ++ ['%'])) t = false) :
    ¬ (s.map Char.toLower) <:+: (t.map Char.toLower) := by
  intro hc
  rw [(like_substring s t hs).2 hc] at h
  exact absurd h (by simp)

theorem condSearch_sem_curingas (s : String) (hs : s ≠ "")
    (hw : ∀ c ∈ s.data, c ≠ '%' ∧ c ≠ '_') (f : Filtros) (hf : f.search = some s)
    (r : Row) :
    condSearch f r = true ↔
      (ocorreEm s r.nome ∨ ∃ d, r.descricao = some d ∧ ocorreEm s d) := by
  have hpat : ("%" ++ s ++ "%").data = '%' :: (s.data ++ ['%']) := by
    simp [String.data_append]
  simp only [condSearch, hf, strTruthy_of_ne s hs, if_true, sqlLike, hpat, ocorreEm]
  cases hd : r.descricao with
  | none =>
    cases hm : likeMatch ('%' :: (s.data ++ ['%'])) r.nome.data with
    | true =>
      have := (like_substring s.data r.nome.data hw).1 hm
      simp [sqlOr, sqlIsTrue, this]
    | false =>
      have := like_substring_false s.data r.nome.data hw hm
      simp [sqlOr, sqlIsTrue, this]
  | some d =>
    cases hm : likeMatch ('%' :: (s.data ++ ['%'])) r.nome.data with
    | true =>
      have := (like_substring s.data r.nome.data hw).1 hm
      simp [sqlOr, sqlIsTrue, this]
    | false =>
      have hn := like_substring_false s.data r.nome.data hw hm
      cases hm2 : likeMatch ('%' :: (s.data ++ ['%'])) d.data with
      | true =>
        have := (like_substring s.data d.data hw).1 hm2
        simp [sqlOr, sqlIsTrue, this, hm2]
      | false =>
        have hn2 := like_substring_false s.data d.data hw hm2
        simp [sqlOr, sqlIsTrue, hn, hn2, hm2]

/-- Supporting C3: for a non-empty search text with no `%` and no `_` in it, the
records returned are exactly the stored records whose `nome` or `descricao`
contains the text, up to the case of the ASCII letters. -/
theorem buscar_search_sem_curingas (db : Db) (s : String) (hs : s ≠ "")
    (hw : ∀ c ∈ s.data, c ≠ '%' ∧ c ≠ '_') :
    ∃ ps, buscarTodosProdutos db { search := some s } = .ok ps ∧
      ∀ p, p ∈ ps ↔ ∃ r ∈ db.rows, converter r = p ∧
        (ocorreEm s r.nome ∨ ∃ d, r.descricao = some d ∧ ocorreEm s d) := by
  refine ⟨_, rfl, ?_⟩
  intro p
  rw [List.mem_map]
  constructor
  · rintro ⟨r, hr, rfl⟩
    rw [(orderBy_perm _).mem_iff, List.mem_filter] at hr
    refine ⟨r, hr.1, rfl, ?_⟩
    have hcs : condSearch { search := some s } r = true := by
      have := hr.2
      simp only [whereClause, Bool.and_eq_true] at this
      exact this.1.1.1.1
    exact (condSearch_sem_curingas s hs hw _ rfl r).1 hcs
  · rintro ⟨r, hr, rfl, hoc⟩
    refine ⟨r, ?_, rfl⟩
    rw [(orderBy_perm _).mem_iff, List.mem_filter]
    refine ⟨hr, ?_⟩
    have hcs := (condSearch_sem_curingas s hs hw { search := some s } rfl r).2 hoc
    simp only [whereClause, hcs, Bool.true_and]
    rfl

/-- Supporting C2: when no search text is given, the `categoria` given is not
empty and the price bounds given are numbers other than `NaN` and 0, the row
filter is the conjunction of the filters given, with both price bounds
inclusive. -/
theorem whereClause_filtros (f : Filtros) (r : Row) (hs : f.search = none)
    (hc : ∀ c, f.categoria = some c → c ≠ "")
    (hmin : ∀ x, f.minPrice = some x → x ≠ .nan ∧ x ≠ .num (.fin 0))
    (hmax : ∀ x, f.maxPrice = some x → x ≠ .nan ∧ x ≠ .num (.fin 0)) :
    whereClause f r = true ↔
      (∀ c, f.categoria = some c → r.categoria = some c) ∧
      (∀ x, f.minPrice = some (.num x) → Real64.le x r.preco = true) ∧
      (∀ x, f.maxPrice = some (.num x) → Real64.le r.preco x = true) ∧
      (∀ b, f.ativo = some b → r.ativo = some (if b then 1 else 0)) := by
  have truthy_of : ∀ x : Real64, JsNum.num x ≠ .num (.fin 0) →
      (JsNum.num x).truthy = true := by
    intro x hx
    cases x with
    | negInf => rfl
    | posInf => rfl
    | fin q =>
      have : q ≠ 0 := by
        intro hq
        exact hx (by rw [hq])
      simp [JsNum.truthy, this]
  have h1 : condSearch f r = true := by simp [condSearch, hs]
  have h2 : condCategoria f r = true ↔ ∀ c, f.categoria = some c → r.categoria = some c := by
    cases hfc : f.categoria with
    | none => simp [condCategoria, hfc]
    | some c =>
      have hne := strTruthy_of_ne c (hc c hfc)
      cases hrc : r.categoria with
      | none => simp [condCategoria, hfc, hne, sqlEq, sqlIsTrue, hrc]
      | some v =>
        by_cases hv : v = c
        · simp [condCategoria, hfc, hne, sqlEq, sqlIsTrue, hv, hrc]
        · simp [condCategoria, hfc, hne, sqlEq, sqlIsTrue, hv, hrc]
  have h3 : condMinPrice f r = true ↔
      ∀ x, f.minPrice = some (.num x) → Real64.le x r.preco = true := by
    cases hfm : f.minPrice with
    | none => simp [condMinPrice, hfm]
    | some y =>
      cases y with
      | nan => exact absurd rfl (hmin _ hfm).1
      | num x =>
        have ht := truthy_of x (hmin _ hfm).2
        cases hle : Real64.le x r.preco <;>
          simp [condMinPrice, hfm, ht, bindNum, sqlLe, sqlIsTrue, hle]
  have h4 : condMaxPrice f r = true ↔
      ∀ x, f.maxPrice = some (.num x) → Real64.le r.preco x = true := by
    cases hfm : f.maxPrice with
    | none => simp [condMaxPrice, hfm]
    | some y =>
      cases y with
      | nan => exact absurd rfl (hmax _ hfm).1
      | num x =>
        have ht := truthy_of x (hmax _ hfm).2
        cases hle : Real64.le r.preco x <;>
          simp [condMaxPrice, hfm, ht, bindNum, sqlLe, sqlIsTrue, hle]
  have h5 : condAtivo f r = true ↔
      ∀ b, f.ativo = some b → r.ativo = some (if b then 1 else 0) := by
    cases hfa : f.ativo with
    | none => simp [condAtivo, hfa]
    | some b =>
      cases hra : r.ativo with
      | none => simp [condAtivo, hfa, sqlEq, sqlIsTrue, hra]
      | some v =>
        by_cases hv : v = (if b then 1 else 0)
        · simp [condAtivo, hfa, sqlEq, sqlIsTrue, hv, hra]
        · simp [condAtivo, hfa, sqlEq, sqlIsTrue, hv, hra]
  simp only [whereClause, Bool.and_eq_true, h1, true_and, h2, h3, h4, h5, and_assoc]

/-- C2, on the code: a price bound of 0 is dropped by the test
`if (filtros.maxPrice)`. In the store whose only record costs 5, the filters
`{maxPrice: 0}` return that record, although 5 <= 0 is false. -/
theorem maxPrice_zero_ignorado :
    buscarTodosProdutos dbUm { maxPrice := some (.num (.fin 0)) } = .ok [converter rowWidget] ∧
    rowWidget.preco = .fin 5 ∧ Real64.le rowWidget.preco (.fin 0) = false := by
  decide

/-- C3, on the code: the search text goes into the `LIKE` pattern unescaped. In
the store whose only record is named "Widget" with an empty description, the
search "W_d" returns that record, although neither text contains "W_d". -/
theorem search_curinga_nao_escapado :
    buscarTodosProdutos dbUm { search := some "W_d" } = .ok [converter rowWidget] ∧
    rowWidget.nome = "Widget" ∧ rowWidget.descricao = some "" ∧
    ¬ ocorreEm "W_d" "Widget" ∧ ¬ ocorreEm "W_d" "" := by
  decide

/-! ## Lemmas on the writing statements -/

theorem le_maxRowid (rows : List Row) (r : Row) (hr : r ∈ rows) :
    ∃ m, maxRowid rows = some m ∧ r.id ≤ m := by
  induction rows with
  | nil => exact absurd hr (List.not_mem_nil r)
  | cons a t ih =>
    rw [List.mem_cons] at hr
    cases hm : maxRowid t with
    | none =>
      rcases hr with rfl | hr
      · exact ⟨r.id, by simp [maxRowid, hm], le_refl _⟩
      · obtain ⟨m, hm', _⟩ := ih hr
        rw [hm] at hm'
        exact absurd hm' (by simp)
    | some m =>
      refine ⟨max a.id m, by simp [maxRowid, hm], ?_⟩
      rcases hr with rfl | hr
      · exact le_max_left _ _
      · obtain ⟨m', hm', hle⟩ := ih hr
        rw [hm] at hm'
        cases hm'
        exact le_trans hle (le_max_right _ _)

theorem newRowid_fresh (db : Db) (v : Int) (h : newRowid db = .ok v) :
    (∀ r ∈ db.rows, r.id < v) ∧ db.seq < v := by
  unfold newRowid at h
  simp only at h
  split at h
  · exact absurd h (by simp)
  · injection h with h
    subst h
    refine ⟨?_, ?_⟩
    · intro r hr
      obtain ⟨m, hm, hle⟩ := le_maxRowid db.rows r hr
      simp only [hm, Option.getD_some]
      have := le_max_left (m + 1) (db.seq + 1)
      omega
    · have := le_max_right ((maxRowid db.rows).getD 0 + 1) (db.seq + 1)
      omega

theorem sqlInsert_ok (db : Db) (now : Timestamp) (nome : Option String)
    (descricao : Option String) (preco : Option Real64) (estoque : Option Int)
    (categoria : Option String) (ativo : Option Int) (id : Int) (db' : Db)
    (h : sqlInsert db now nome descricao preco estoque categoria ativo = (.ok id, db')) :
    ∃ n p, nome = some n ∧ preco = some p ∧ newRowid db = .ok id ∧
      db' = { rows := db.rows ++ [{ id := id, nome := n, descricao := descricao, preco := p,
                                    estoque := estoque, categoria := categoria, ativo := ativo,
                                    criado_em := now, atualizado_em := now }],
              seq := id } := by
  unfold sqlInsert at h
  cases hv : newRowid db with
  | error e => simp [hv] at h
  | ok v =>
    cases nome with
    | none => simp [hv] at h
    | some n =>
      cases preco with
      | none => simp [hv] at h
      | some p =>
        simp only [hv, Prod.mk.injEq, Except.ok.injEq] at h
        obtain ⟨h1, h2⟩ := h
        subst h1
        exact ⟨n, p, rfl, rfl, rfl, h2.symm⟩

theorem find_append_fresh (rows : List Row) (row : Row) (h : ∀ r ∈ rows, r.id ≠ row.id) :
    (rows ++ [row]).find? (fun r => idEq r (some row.id)) = some row := by
  induction rows with
  | nil => simp [idEq]
  | cons a t ih =>
    have ha : a.id ≠ row.id := h a (by simp)
    have ht : ∀ r ∈ t, r.id ≠ row.id := fun r hr => h r (by simp [hr])
    simp only [List.cons_append, List.find?_cons, idEq, ha, decide_False]
    exact ih ht

/-! ## Reading a stored `estoque` back -/

theorem digitChar_toNat (d : Nat) (h : d < 10) :
    (Nat.digitChar d).toNat - 48 = d ∧ isDecDigit (Nat.digitChar d) = true := by
  interval_cases d <;> decide

theorem decValue_toDigitsCore (fuel n : Nat) (ds : List Char) (h : n < fuel) :
    (Nat.toDigitsCore 10 fuel n ds).foldl (fun acc c => 10 * acc + (c.toNat - 48)) 0 =
      ds.foldl (fun acc c => 10 * acc + (c.toNat - 48)) n := by
  induction fuel generalizing n ds with
  | zero => omega
  | succ f ih =>
    have hd := (digitChar_toNat (n % 10) (Nat.mod_lt _ (by decide))).1
    simp only [Nat.toDigitsCore]
    split
    · rename_i h0
      simp only [List.foldl_cons, Nat.mul_zero, Nat.zero_add, hd]
      have : n % 10 = n := by omega
      rw [this]
    · rename_i h0
      rw [ih (n / 10) _ (by omega)]
      simp only [List.foldl_cons, hd]
      have : 10 * (n / 10) + n % 10 = n := Nat.div_add_mod n 10
      rw [this]

theorem digits_toDigitsCore (fuel n : Nat) (ds : List Char)
    (hds : ∀ c ∈ ds, isDecDigit c = true) :
    ∀ c ∈ Nat.toDigitsCore 10 fuel n ds, isDecDigit c = true := by
  induction fuel generalizing n ds with
  | zero => simpa [Nat.toDigitsCore] using hds
  | succ f ih =>
    have hd := (digitChar_toNat (n % 10) (Nat.mod_lt _ (by decide))).2
    have hcons : ∀ c ∈ Nat.digitChar (n % 10) :: ds, isDecDigit c = true := by
      intro c hc
      rw [List.mem_cons] at hc
      rcases hc with rfl | hc
      · exact hd
      · exact hds c hc
    simp only [Nat.toDigitsCore]
    split
    · exact hcons
    · exact ih _ _ hcons

theorem toDigitsCore_ne_nil (fuel n : Nat) (ds : List Char) (h : 0 < fuel) :
    Nat.toDigitsCore 10 fuel n ds ≠ [] := by
  induction fuel generalizing n ds with
  | zero => omega
  | succ f ih =>
    simp only [Nat.toDigitsCore]
    split
    · simp
    · cases f with
      | zero => simp [Nat.toDigitsCore]
      | succ g => exact ih _ _ (by omega)

theorem not_ws_of_digit (c : Char) (h : isDecDigit c = true) : isStrWhiteSpace c = false := by
  simp only [isDecDigit, Bool.and_eq_true, decide_eq_true_eq] at h
  simp only [isStrWhiteSpace, Bool.or_eq_false_iff, Bool.and_eq_false_iff,
    decide_eq_false_iff_not]
  omega

theorem digit_ne (c : Char) (h : isDecDigit c = true) :
    c ≠ '-' ∧ c ≠ '+' ∧ c ≠ 'x' ∧ c ≠ 'X' := by
  simp only [isDecDigit, Bool.and_eq_true, decide_eq_true_eq] at h
  refine ⟨?_, ?_, ?_, ?_⟩ <;> (rintro rfl; revert h; decide)

theorem takeSign_digit (c : Char) (t : List Char) (h : isDecDigit c = true) :
    takeSign (c :: t) = (false, c :: t) := by
  obtain ⟨h1, h2, _, _⟩ := digit_ne c h
  unfold takeSign
  split
  · rename_i heq
    simp only [List.cons.injEq] at heq
    exact absurd heq.1 h1
  · rename_i heq
    simp only [List.cons.injEq] at heq
    exact absurd heq.1 h2
  · rfl

theorem parseMag_digits (c : Char) (t : List Char) (h : ∀ x ∈ c :: t, isDecDigit x = true) :
    (match c :: t with
      | '0' :: 'x' :: hs | '0' :: 'X' :: hs =>
        let ds := hs.takeWhile (fun c => (hexDigitVal c).isSome)
        if ds.isEmpty then none else some (hexValue ds)
      | _ =>
        let ds := (c :: t).takeWhile isDecDigit
        if ds.isEmpty then none else some (decValue ds)) = some (decValue (c :: t)) := by
  have htw : (c :: t).takeWhile isDecDigit = c :: t := by
    rw [List.takeWhile_eq_self_iff]
    exact h
  split
  · rename_i hs heq
    simp only [List.cons.injEq] at heq
    obtain ⟨_, rfl⟩ := heq
    exact absurd rfl (digit_ne 'x' (h 'x' (by simp))).2.2.1
  · rename_i hs heq
    simp only [List.cons.injEq] at heq
    obtain ⟨_, rfl⟩ := heq
    exact absurd rfl (digit_ne 'X' (h 'X' (by simp))).2.2.2
  · simp only [htw]
    rfl

theorem parseIntChars_digits (c : Char) (t : List Char)
    (h : ∀ x ∈ c :: t, isDecDigit x = true) :
    parseIntChars (c :: t) = .int (decValue (c :: t)) ∧
    parseIntChars ('-' :: c :: t) = .int (-(decValue (c :: t) : Int)) := by
  have hc := h c (by simp)
  have hws : (c :: t).dropWhile isStrWhiteSpace = c :: t := by
    simp [List.dropWhile_cons, not_ws_of_digit c hc]
  have hws2 : ('-' :: c :: t).dropWhile isStrWhiteSpace = '-' :: c :: t := by
    have : isStrWhiteSpace '-' = false := by decide
    simp [List.dropWhile_cons, this]
  have hm := parseMag_digits c t h
  refine ⟨?_, ?_⟩
  · unfold parseIntChars
    simp only [hws, takeSign_digit c t hc]
    rw [hm]
    rfl
  · unfold parseIntChars
    have hts : takeSign ('-' :: c :: t) = (true, c :: t) := rfl
    simp only [hws2, hts]
    rw [hm]
    rfl

theorem parseIntEstoque_small (i : Int) (h : i.natAbs < 10 ^ 21) :
    parseIntEstoque (some i) = .int i := by
  have hne := toDigitsCore_ne_nil (i.natAbs + 1) i.natAbs [] (by omega)
  have hdig := digits_toDigitsCore (i.natAbs + 1) i.natAbs [] (by simp)
  have hval : decValue (Nat.toDigitsCore 10 (i.natAbs + 1) i.natAbs []) = i.natAbs := by
    unfold decValue
    rw [decValue_toDigitsCore _ _ _ (by omega)]
    rfl
  cases hl : Nat.toDigitsCore 10 (i.natAbs + 1) i.natAbs [] with
  | nil => exact absurd hl hne
  | cons c t =>
    rw [hl] at hdig hval
    obtain ⟨p1, p2⟩ := parseIntChars_digits c t hdig
    simp only [parseIntEstoque, numberToString, h, if_true, Nat.toDigits, hl]
    by_cases hneg : i < 0
    · simp only [hneg, if_true, List.singleton_append, p2, hval]
      congr 1
      omega
    · simp only [hneg, if_false, List.nil_append, p1, hval]
      congr 1
      omega

theorem campos_do_input (p : ProdutoInput) (r : Row)
    (hd : r.descricao = some (descricaoParam p)) (he : r.estoque = estoqueParam p)
    (hc : r.categoria = some (categoriaParam p)) (ha : r.ativo = some (ativoParam p)) :
    (∀ d, p.descricao = some d → (converter r).descricao = some d) ∧
    (p.descricao = none → (converter r).descricao = some "") ∧
    (∀ i, p.estoque = some (.int i) → i.natAbs < 10 ^ 21 → (converter r).estoque = .int i) ∧
    (p.estoque = none ∨ p.estoque = some .nan → (converter r).estoque = .int 0) ∧
    (∀ c, p.categoria = some c → c ≠ "" → (converter r).categoria = some c) ∧
    (p.categoria = none ∨ p.categoria = some "" → (converter r).categoria = some "Outros") ∧
    (∀ b, p.ativo = some b → (converter r).ativo = b) ∧
    (p.ativo = none → (converter r).ativo = true) := by
  have hzero : parseIntEstoque (some 0) = .int 0 := by decide
  refine ⟨?_, ?_, ?_, ?_, ?_, ?_, ?_, ?_⟩
  · intro d hpd
    by_cases hde : d = ""
    · subst hde
      simp [converter, hd, descricaoParam, hpd]
    · have : d.data ≠ [] := fun hc => hde (String.ext hc)
      simp [converter, hd, descricaoParam, hpd, strTruthy, this]
  · intro hpd
    simp [converter, hd, descricaoParam, hpd]
  · intro i hi hlt
    have hst : estoqueParam p = some i := by
      by_cases h0 : i = 0
      · subst h0
        simp [estoqueParam, hi, JsInt.truthy]
      · simp [estoqueParam, hi, JsInt.truthy, h0, bindInt]
    simp only [converter, he, hst]
    exact parseIntEstoque_small i hlt
  · intro hpe
    have hst : estoqueParam p = some 0 := by
      rcases hpe with hpe | hpe <;> simp [estoqueParam, hpe, JsInt.truthy]
    simp only [converter, he, hst]
    exact hzero
  · intro c hpc hce
    have : c.data ≠ [] := fun hcc => hce (String.ext hcc)
    simp [converter, hc, categoriaParam, hpc, strTruthy, this]
  · rintro (hpc | hpc) <;> simp [converter, hc, categoriaParam, hpc, strTruthy]
  · intro b hb
    cases b <;> simp [converter, ha, ativoParam, hb]
  · intro hb
    simp [converter, ha, ativoParam, hb]

theorem precoParam_some (p : ProdutoInput) (x : Real64) :
    precoParam p = some x ↔ p.preco = some (.num x) := by
  unfold precoParam
  cases hq : p.preco with
  | none => simp
  | some q =>
    cases q with
    | nan => simp [bindNum]
    | num y => simp [bindNum]

theorem eq_of_id_eq (rows : List Row) (hnd : (rows.map Row.id).Nodup) (a b : Row)
    (ha : a ∈ rows) (hb : b ∈ rows) (h : a.id = b.id) : a = b :=
  List.inj_on_of_nodup_map hnd ha hb h

theorem filter_id_singleton (rows : List Row) (hnd : (rows.map Row.id).Nodup) (r0 : Row)
    (hr : r0 ∈ rows) : rows.filter (fun r => idEq r (some r0.id)) = [r0] := by
  induction rows with
  | nil => exact absurd hr (List.not_mem_nil r0)
  | cons a t ih =>
    rw [List.map_cons, List.nodup_cons] at hnd
    obtain ⟨hnot, hnd'⟩ := hnd
    rw [List.mem_cons] at hr
    rcases hr with rfl | hr
    · have : t.filter (fun r => idEq r (some r0.id)) = [] := by
        rw [List.filter_eq_nil_iff]
        intro r hrt hc
        simp only [idEq, decide_eq_true_eq] at hc
        exact hnot (by rw [← hc]; exact List.mem_map_of_mem _ hrt)
      rw [List.filter_cons, if_pos (by simp [idEq]), this]
    · have hne : a.id ≠ r0.id := by
        intro hc
        exact hnot (by rw [hc]; exact List.mem_map_of_mem _ hr)
      rw [List.filter_cons, if_neg (by simp [idEq, hne]), ih hnd' hr]

theorem find_id_of_mem (rows : List Row) (hnd : (rows.map Row.id).Nodup) (r0 : Row)
    (hr : r0 ∈ rows) : rows.find? (fun r => idEq r (some r0.id)) = some r0 := by
  cases hf : rows.find? (fun r => idEq r (some r0.id)) with
  | none =>
    rw [List.find?_eq_none] at hf
    exact absurd (hf r0 hr) (by simp [idEq])
  | some a =>
    have hmem := List.mem_of_find?_eq_some hf
    have hp := List.find?_some hf
    simp only [idEq, decide_eq_true_eq] at hp
    rw [eq_of_id_eq rows hnd a r0 hmem hr hp]

theorem inserirProduto_WF (db : Db) (hwf : db.WF) (now : Timestamp) (p : ProdutoInput)
    (id : Int) (db' : Db) (h : inserirProduto db now p = (.ok id, db')) : db'.WF := by
  unfold inserirProduto at h
  obtain ⟨n, x, _, _, hv, hdb⟩ := sqlInsert_ok _ _ _ _ _ _ _ _ _ _ h
  obtain ⟨hfresh, _⟩ := newRowid_fresh db id hv
  subst hdb
  unfold Db.WF at *
  simp only [List.map_append, List.map_cons, List.map_nil]
  rw [List.nodup_append]
  refine ⟨hwf, List.nodup_singleton _, ?_⟩
  intro a ha hb
  rw [List.mem_singleton] at hb
  rw [List.mem_map] at ha
  obtain ⟨r, hr, rfl⟩ := ha
  exact absurd hb (ne_of_lt (hfresh r hr))

theorem atualizarProduto_ids (db : Db) (now : Timestamp) (id : JsInt) (p : ProdutoInput) :
    (atualizarProduto db now id p).2.rows.map Row.id = db.rows.map Row.id := by
  unfold atualizarProduto sqlUpdate
  simp only
  split
  · rfl
  · split
    · simp only [List.map_map]
      apply List.map_congr_left
      intro r _
      simp only [Function.comp]
      split <;> rfl
    · rfl

theorem atualizarProduto_WF (db : Db) (hwf : db.WF) (now : Timestamp) (id : JsInt)
    (p : ProdutoInput) : (atualizarProduto db now id p).2.WF := by
  unfold Db.WF at *
  rw [atualizarProduto_ids]
  exact hwf

theorem excluirProduto_WF (db : Db) (hwf : db.WF) (id : JsInt) :
    (excluirProduto db id).2.WF := by
  unfold Db.WF at *
  exact hwf.sublist (List.Sublist.map _ (List.filter_sublist _))

/-! ## Create, then read -/

/-- C5 as stated fails: the input `{nome: "Widget", preco: 5, categoria: ""}` has
its `categoria` present, the insert resolves with id 1, and the record read back
has `categoria = "Outros"`, not the input's `""`. -/
theorem inserir_categoria_vazia_contra :
    (inserirProduto dbVazio 100 inputCategoriaVazia).1 = .ok 1 ∧
    buscarProdutoPorId (inserirProduto dbVazio 100 inputCategoriaVazia).2 (.int 1) =
      .ok (some produtoOutros) ∧
    inputCategoriaVazia.categoria = some "" ∧ produtoOutros.categoria = some "Outros" ∧
    produtoOutros.categoria ≠ inputCategoriaVazia.categoria := by
  decide

/-- C5, amended: if `inserirProduto(input)` resolves with `id`, then `nome` and
`preco` were present, and `buscarProdutoPorId(id)` returns a record with the
input's `nome` and `preco`; with the input's `descricao`, `categoria` and `ativo`
where these are present and not empty (`categoria` not `""`), and with the input's
`estoque` where it is an integer below 1e21 in magnitude; otherwise with the
defaults `""`, `"Outros"`, `true`, and 0 for an absent or `NaN` `estoque`; with an
id that no stored record had before the call, that lies above every stored id
and above the sequence counter (so above every id handed out before); and with
`criado_em` equal to `atualizado_em`. -/
theorem inserir_depois_buscar (db : Db) (now : Timestamp) (p : ProdutoInput) (id : Int)
    (db' : Db) (h : inserirProduto db now p = (.ok id, db')) :
    ∃ n x rec, p.nome = some n ∧ p.preco = some (.num x) ∧
      buscarProdutoPorId db' (.int id) = .ok (some rec) ∧
      rec.id = id ∧ rec.nome = n ∧ rec.preco = .num x ∧
      (∀ d, p.descricao = some d → rec.descricao = some d) ∧
      (p.descricao = none → rec.descricao = some "") ∧
      (∀ i, p.estoque = some (.int i) → i.natAbs < 10 ^ 21 → rec.estoque = .int i) ∧
      (p.estoque = none ∨ p.estoque = some .nan → rec.estoque = .int 0) ∧
      (∀ c, p.categoria = some c → c ≠ "" → rec.categoria = some c) ∧
      (p.categoria = none ∨ p.categoria = some "" → rec.categoria = some "Outros") ∧
      (∀ b, p.ativo = some b → rec.ativo = b) ∧
      (p.ativo = none → rec.ativo = true) ∧
      (∀ r ∈ db.rows, r.id ≠ id ∧ r.id < id) ∧ db.seq < id ∧ db'.seq = id ∧
      rec.criado_em = rec.atualizado_em := by
  unfold inserirProduto at h
  obtain ⟨n, x, hn, hp, hv, hdb⟩ := sqlInsert_ok _ _ _ _ _ _ _ _ _ _ h
  obtain ⟨hfresh, hseq⟩ := newRowid_fresh db id hv
  have hne : ∀ r ∈ db.rows, r.id ≠ id := fun r hr => ne_of_lt (hfresh r hr)
  have hpx : p.preco = some (.num x) := (precoParam_some p x).1 hp
  have hfind := find_append_fresh db.rows
    { id := id, nome := n, descricao := some (descricaoParam p), preco := x,
      estoque := estoqueParam p, categoria := some (categoriaParam p),
      ativo := some (ativoParam p), criado_em := now, atualizado_em := now } hne
  obtain ⟨c1, c2, c3, c4, c5, c6, c7, c8⟩ := campos_do_input p
    { id := id, nome := n, descricao := some (descricaoParam p), preco := x,
      estoque := estoqueParam p, categoria := some (categoriaParam p),
      ativo := some (ativoParam p), criado_em := now, atualizado_em := now } rfl rfl rfl rfl
  refine ⟨n, x, _, hn, hpx, ?_, rfl, rfl, rfl, c1, c2, c3, c4, c5, c6, c7, c8,
    fun r hr => ⟨hne r hr, hfresh r hr⟩, hseq, by rw [hdb], rfl⟩
  subst hdb
  simp only [buscarProdutoPorId, sqlSelectById, bindInt]
  rw [hfind]

theorem inserir_depois_buscar_witness :
    inserirProduto dbUm 300 inputCompleto = (.ok 2, { rows := [rowWidget, rowLamp], seq := 2 }) ∧
    ∃ n x rec, inputCompleto.nome = some n ∧ inputCompleto.preco = some (.num x) ∧
      buscarProdutoPorId { rows := [rowWidget, rowLamp], seq := 2 } (.int 2) = .ok (some rec) ∧
      rec.id = 2 ∧ rec.nome = n ∧ rec.preco = .num x ∧ rec.estoque = .int 3 ∧
      rec.categoria = some "Home" ∧ rec.ativo = false :=
  have h : inserirProduto dbUm 300 inputCompleto =
      (.ok 2, { rows := [rowWidget, rowLamp], seq := 2 }) := by decide
  ⟨h, by
    obtain ⟨n, x, rec, h1, h2, h3, h4, h5, h6, _, _, h9, _, h11, _, h13, _⟩ :=
      inserir_depois_buscar _ _ _ _ _ h
    exact ⟨n, x, rec, h1, h2, h3, h4, h5, h6, h9 3 rfl (by decide),
      h11 "Home" rfl (by decide), h13 false rfl⟩⟩

/-- The bound on `estoque` in C5 and C6 is needed: an `estoque` of 1e21 goes into
the empty store, and the record read back has `estoque` 1. -/
theorem estoque_1e21_le_1 :
    (inserirProduto dbVazio 100 inputEstoqueGrande).1 = .ok 1 ∧
    (buscarProdutoPorId (inserirProduto dbVazio 100 inputEstoqueGrande).2 (.int 1)).map
      (Option.map Produto.estoque) = .ok (some (.int 1)) ∧
    numberToString 1000000000000000000000 = "1e+21".data := by
  decide

/-! ## Update -/

theorem find_map_update (rows : List Row) (f : Row → Row) (hf : ∀ r, (f r).id = r.id)
    (i : Option Int) :
    (rows.map f).find? (fun r => idEq r i) = (rows.find? (fun r => idEq r i)).map f := by
  induction rows with
  | nil => rfl
  | cons a t ih =>
    have hk : idEq (f a) i = idEq a i := by
      cases i with
      | none => rfl
      | some j => simp [idEq, hf a]
    simp only [List.map_cons, List.find?_cons, hk]
    cases idEq a i with
    | true => rfl
    | false => exact ih

/-- C6 as stated fails: in the store that holds record 1, `atualizarProduto(1, {})`
does not return 1. The input has no `nome` and no `preco`, the `NOT NULL`
constraints reject the statement, and the store is left as it was. -/
theorem atualizar_sem_nome_contra :
    (∃ r ∈ dbUm.rows, r.id = 1) ∧
    atualizarProduto dbUm 300 (.int 1) {} = (.error .constraint, dbUm) ∧
    (atualizarProduto dbUm 300 (.int 1) {}).1 ≠ .ok 1 := by
  decide

/-- C6, amended: for every store with unique ids, every record `r0` in it and
every input whose `nome` is present and whose `preco` is a number other than
`NaN`, `atualizarProduto(r0.id, input)` resolves with 1 and leaves a store in
which the record with that id has the input's `nome` and `preco`, has
`descricao`, `estoque`, `categoria` and `ativo` overwritten under the defaulting
rules of `inserirProduto` (an integer `estoque` is read back as given when it is
below 1e21 in magnitude), keeps its `id` and `criado_em`, and has `atualizado_em`
set to the current time; every other record is unchanged, and so is the sequence
counter. -/
theorem atualizar_sobrescreve (db : Db) (hwf : db.WF) (now : Timestamp) (r0 : Row)
    (hr : r0 ∈ db.rows) (p : ProdutoInput) (n : String) (x : Real64)
    (hn : p.nome = some n) (hp : p.preco = some (.num x)) :
    ∃ db' rec, atualizarProduto db now (.int r0.id) p = (.ok 1, db') ∧
      buscarProdutoPorId db' (.int r0.id) = .ok (some rec) ∧
      rec.id = r0.id ∧ rec.criado_em = r0.criado_em ∧ rec.atualizado_em = now ∧
      rec.nome = n ∧ rec.preco = .num x ∧
      (∀ d, p.descricao = some d → rec.descricao = some d) ∧
      (p.descricao = none → rec.descricao = some "") ∧
      (∀ i, p.estoque = some (.int i) → i.natAbs < 10 ^ 21 → rec.estoque = .int i) ∧
      (p.estoque = none ∨ p.estoque = some .nan → rec.estoque = .int 0) ∧
      (∀ c, p.categoria = some c → c ≠ "" → rec.categoria = some c) ∧
      (p.categoria = none ∨ p.categoria = some "" → rec.categoria = some "Outros") ∧
      (∀ b, p.ativo = some b → rec.ativo = b) ∧
      (p.ativo = none → rec.ativo = true) ∧
      db'.rows.map Row.id = db.rows.map Row.id ∧
      (∀ r ∈ db.rows, r.id ≠ r0.id → r ∈ db'.rows) ∧
      (∀ r ∈ db'.rows, r.id ≠ r0.id → r ∈ db.rows) ∧
      (∀ id2 : JsInt, id2 ≠ .int r0.id →
        buscarProdutoPorId db' id2 = buscarProdutoPorId db id2) ∧
      db'.seq = db.seq := by
  have hpx : precoParam p = some x := (precoParam_some p x).2 hp
  have hhits := filter_id_singleton db.rows hwf r0 hr
  let f : Row → Row := fun r =>
    if idEq r (some r0.id) then
      { r with nome := n, descricao := some (descricaoParam p), preco := x,
               estoque := estoqueParam p, categoria := some (categoriaParam p),
               ativo := some (ativoParam p), atualizado_em := now }
    else r
  have hfid : ∀ r, (f r).id = r.id := by
    intro r
    simp only [f]
    split <;> rfl
  have hfne : ∀ r, r.id ≠ r0.id → f r = r := by
    intro r hne
    simp [f, idEq, hne]
  have hrun : atualizarProduto db now (.int r0.id) p =
      (.ok 1, { db with rows := db.rows.map f }) := by
    simp only [atualizarProduto, sqlUpdate, bindInt, hhits, nomeParam, hn, hpx]
    rfl
  have hfind0 : (db.rows.map f).find? (fun r => idEq r (some r0.id)) = some (f r0) := by
    rw [find_map_update db.rows f hfid, find_id_of_mem db.rows hwf r0 hr]
    rfl
  have hf0 : f r0 =
      { r0 with nome := n, descricao := some (descricaoParam p), preco := x,
                estoque := estoqueParam p, categoria := some (categoriaParam p),
                ativo := some (ativoParam p), atualizado_em := now } := by
    simp [f, idEq]
  obtain ⟨c1, c2, c3, c4, c5, c6, c7, c8⟩ := campos_do_input p (f r0)
    (by rw [hf0]) (by rw [hf0]) (by rw [hf0]) (by rw [hf0])
  refine ⟨{ db with rows := db.rows.map f }, converter (f r0), hrun, ?_, ?_, ?_, ?_, ?_, ?_,
    c1, c2, c3, c4, c5, c6, c7, c8, ?_, ?_, ?_, ?_, rfl⟩
  · simp only [buscarProdutoPorId, sqlSelectById, bindInt, hfind0]
  · rw [hf0]; rfl
  · rw [hf0]; rfl
  · rw [hf0]; rfl
  · rw [hf0]; rfl
  · rw [hf0]; rfl
  · simp only [List.map_map]
    apply List.map_congr_left
    intro r _
    exact hfid r
  · intro r hrr hne
    rw [List.mem_map]
    exact ⟨r, hrr, hfne r hne⟩
  · intro r hrr hne
    rw [List.mem_map] at hrr
    obtain ⟨a, ha, rfl⟩ := hrr
    have hane : a.id ≠ r0.id := by rwa [hfid a] at hne
    rw [hfne a hane]
    exact ha
  · intro id2 hid2
    simp only [buscarProdutoPorId, sqlSelectById]
    rw [find_map_update db.rows f hfid]
    cases hfd : db.rows.find? (fun r => idEq r (bindInt id2)) with
    | none => rfl
    | some a =>
      have hpa := List.find?_some hfd
      have hane : a.id ≠ r0.id := by
        intro hc
        cases id2 with
        | nan => simp [bindInt, idEq] at hpa
        | int j =>
          simp only [bindInt, idEq, decide_eq_true_eq] at hpa
          exact hid2 (by rw [← hpa, hc])
      simp only [Option.map_some', hfne a hane]

theorem atualizar_sobrescreve_witness :
    dbDois.WF ∧ rowWidget ∈ dbDois.rows ∧
    ∃ db' rec, atualizarProduto dbDois 300 (.int rowWidget.id) inputCompleto = (.ok 1, db') ∧
      buscarProdutoPorId db' (.int rowWidget.id) = .ok (some rec) ∧
      rec.id = rowWidget.id ∧ rec.criado_em = rowWidget.criado_em ∧ rec.atualizado_em = 300 ∧
      rec.nome = "Lamp" ∧ rec.preco = .num (.fin 12) ∧ rec.estoque = .int 3 :=
  ⟨by decide, by decide, by
    obtain ⟨db', rec, h1, h2, h3, h4, h5, h6, h7, _, _, h10, _⟩ :=
      atualizar_sobrescreve dbDois (by decide) 300 rowWidget (by decide) inputCompleto
        "Lamp" (.fin 12) rfl rfl
    exact ⟨db', rec, h1, h2, h3, h4, h5, h6, h7, h10 3 rfl (by decide)⟩⟩

/-! ## Delete -/

/-- C7: on a store with unique ids and for every id, `excluirProduto(id)`
resolves; with 1, removing exactly the record with that id, when the store has
one, and with 0, leaving the store as it was, when it has none; in both cases
`buscarProdutoPorId(id)` then resolves with `null`. And `atualizarProduto` on an
id the store does not have resolves with 0 and leaves the store as it was,
whatever the input. -/
theorem excluir_spec (db : Db) (hwf : db.WF) (id : JsInt) :
    ∃ n db', excluirProduto db id = (.ok n, db') ∧
      ((∃ r ∈ db.rows, id = .int r.id) →
        n = 1 ∧ db'.rows = db.rows.filter (fun r => decide (id ≠ .int r.id)) ∧
        db'.rows.length + 1 = db.rows.length ∧ db'.seq = db.seq) ∧
      ((¬ ∃ r ∈ db.rows, id = .int r.id) → n = 0 ∧ db' = db) ∧
      buscarProdutoPorId db' id = .ok none ∧
      ((¬ ∃ r ∈ db.rows, id = .int r.id) →
        ∀ (now : Timestamp) (p : ProdutoInput), atualizarProduto db now id p = (.ok 0, db)) := by
  have hkeep : ∀ r : Row, (!idEq r (bindInt id)) = decide (id ≠ .int r.id) := by
    intro r
    cases id with
    | nan => simp [bindInt, idEq]
    | int j =>
      by_cases hj : r.id = j
      · simp [bindInt, idEq, hj]
      · have : j ≠ r.id := fun hc => hj hc.symm
        simp [bindInt, idEq, hj, this]
  have hnone : (¬ ∃ r ∈ db.rows, id = .int r.id) →
      db.rows.filter (fun r => idEq r (bindInt id)) = [] := by
    intro hno
    rw [List.filter_eq_nil_iff]
    intro r hr hc
    apply hno
    refine ⟨r, hr, ?_⟩
    cases id with
    | nan => simp [bindInt, idEq] at hc
    | int j =>
      simp only [bindInt, idEq, decide_eq_true_eq] at hc
      rw [hc]
  refine ⟨(sqlDelete db (bindInt id)).1, (sqlDelete db (bindInt id)).2, rfl, ?_, ?_, ?_, ?_⟩
  · rintro ⟨r0, hr0, rfl⟩
    have hhits := filter_id_singleton db.rows hwf r0 hr0
    have hlen := List.length_eq_length_filter_add (l := db.rows)
      (fun r => idEq r (some r0.id))
    simp only [hhits, List.length_singleton] at hlen
    refine ⟨?_, ?_, ?_, rfl⟩
    · simp only [sqlDelete, bindInt, hhits, List.length_singleton]
    · simp only [sqlDelete]
      apply List.filter_congr
      intro r _
      exact hkeep r
    · simp only [sqlDelete, bindInt]
      omega
  · intro hno
    have hnil := hnone hno
    refine ⟨?_, ?_⟩
    · simp only [sqlDelete, hnil, List.length_nil]
    · simp only [sqlDelete]
      have : db.rows.filter (fun r => !idEq r (bindInt id)) = db.rows := by
        rw [List.filter_eq_self]
        intro r hr
        have := (List.filter_eq_nil_iff.1 hnil) r hr
        simpa using this
      rw [this]
  · simp only [buscarProdutoPorId, sqlSelectById, sqlDelete]
    have : (db.rows.filter (fun r => !idEq r (bindInt id))).find?
        (fun r => idEq r (bindInt id)) = none := by
      rw [List.find?_eq_none]
      intro r hr
      rw [List.mem_filter] at hr
      simpa using hr.2
    rw [this]
  · intro hno now p
    simp only [atualizarProduto, sqlUpdate, hnone hno, List.isEmpty_nil, if_true]

theorem excluir_spec_witness :
    dbDois.WF ∧ excluirProduto dbDois (.int 1) = (.ok 1, dbInativo) ∧
    ∃ n db', excluirProduto dbDois (.int 1) = (.ok n, db') ∧
      buscarProdutoPorId db' (.int 1) = .ok none :=
  ⟨by decide, by decide, by
    obtain ⟨n, db', h1, _, _, h4, _⟩ := excluir_spec dbDois (by decide) (.int 1)
    exact ⟨n, db', h1, h4⟩⟩

/-! ## `POST /produtos` -/

/-- C9 as stated fails: the body `{nome: "Widget", preco: "9.5", estoque: "abc"}`
has a non-numeric `estoque`, yet posted to the empty store it inserts a record,
with `estoque` 0, and answers with the redirect to `/produtos/1`. -/
theorem post_estoque_nao_numerico_contra :
    parseInt bodyEstoqueRuim.estoque = .nan ∧
    (postProdutos dbVazio 100 bodyEstoqueRuim).1 = .redirect "/produtos/1" ∧
    (postProdutos dbVazio 100 bodyEstoqueRuim).2.rows.map Row.id = [1] ∧
    (postProdutos dbVazio 100 bodyEstoqueRuim).2.rows.map Row.estoque = [some 0] ∧
    (postProdutos dbVazio 100 bodyEstoqueRuim).1 ≠ .render 500 "error" := by
  decide

/-- C9, amended: for every store and every `POST /produtos` body whose `preco`
is non-numeric (`parseFloat` gives `NaN`), whatever its `estoque`, the handler
answers with the 500 error view, inserts no record and issues no redirect. A
non-numeric `estoque` on its own does not fail the request: whenever the insert
goes through, the record it adds has `estoque` 0. -/
theorem post_preco_nao_numerico (db : Db) (now : Timestamp) (body : Body) :
    (parseFloat body.preco = .nan →
      postProdutos db now body = (.render 500 "error", db)) ∧
    (parseInt body.estoque = .nan →
      ∀ id db', inserirProduto db now (produtoDoBody body) = (.ok id, db') →
        postProdutos db now body = (.redirect ("/produtos/" ++ toString id), db') ∧
        ∃ r ∈ db'.rows, r.id = id ∧ r.estoque = some 0 ∧ db'.rows = db.rows ++ [r]) := by
  refine ⟨?_, ?_⟩
  · intro hnan
    have hp : precoParam (produtoDoBody body) = none := by
      simp [precoParam, produtoDoBody, hnan, bindNum]
    simp only [postProdutos, inserirProduto, sqlInsert, hp]
    cases newRowid db with
    | error e => rfl
    | ok v =>
      cases nomeParam (produtoDoBody body) <;> rfl
  · intro hnan id db' hins
    refine ⟨?_, ?_⟩
    · simp only [postProdutos, hins]
    · unfold inserirProduto at hins
      obtain ⟨n, x, _, _, _, hdb⟩ := sqlInsert_ok _ _ _ _ _ _ _ _ _ _ hins
      have he : estoqueParam (produtoDoBody body) = some 0 := by
        simp [estoqueParam, produtoDoBody, hnan, JsInt.truthy]
      subst hdb
      exact ⟨_, by simp, rfl, he, rfl⟩

theorem post_preco_nao_numerico_witness :
    parseFloat bodyPrecoRuim.preco = .nan ∧
    postProdutos dbUm 100 bodyPrecoRuim = (.render 500 "error", dbUm) :=
  ⟨by decide, (post_preco_nao_numerico dbUm 100 bodyPrecoRuim).1 (by decide)⟩

end ProjetoFinal
